import Mathlib

/-!
# Verification of the backup/versioning/retention engine

A shallow embedding, in Lean 4, of the core of the MCP backup server
(`index.ts` plus `utils.ts`): path mapping, the sidecar-metadata store,
backup creation, listing, restore, the emergency safety net, retention,
cancel bookkeeping, the recursive tree copier, and the timestamp format.

Modelling conventions:

* The filesystem is a flat store: `files` maps a path to its byte content
  (`List Nat`), `dirs` is the set of existing directories, and `metas`
  maps the path of a `.meta.json` sidecar file to the parsed
  `BackupMetadata` record it contains (the engine writes these files with
  `JSON.stringify` and reads them back with `JSON.parse`; the embedding
  stores the record directly, which is faithful because the
  serialisation round-trips these records).  `fsPromises.mkdir`
  with `recursive: true` is modelled as inserting the requested path into
  `dirs`; theorems that rely on a store root existing carry that as a
  hypothesis instead of deriving it from ancestor creation.
* Host functions of the Node runtime that the engine calls are
  parameters of an `Env`: the wall clock read by `generateTimestamp`
  (`clock`), the wall clock read by `new Date().toISOString()`
  (`isoClock`), `crypto.randomUUID` (`uuid`), the `minimatch` glob
  matcher (`glob`), and `new Date(s).getTime()` (`dateMs`, where `none`
  models `NaN`).  Each call of a clock advances the state's `tick`, so
  distinct calls may observe distinct times.
* Paths are strings; the POSIX behaviour of Node's `path` module
  (`normalize`, `join`, `parse`, `dirname`, `basename`, `relative`) is
  implemented on character lists by structural recursion so that every
  definition evaluates inside the kernel.
* Fallible operations return `Except String`, and every handler returns
  its final state next to its result, so that mutations performed before
  a thrown error persist, exactly as in the JavaScript.
-/

/-! ## Character-list string utilities (kernel-reducible replacements
for the byte-indexed core `String` functions) -/

/-- Does the first list occur as a prefix of the second? -/
def charsStart : List Char → List Char → Bool
  | [], _ => true
  | _ :: _, [] => false
  | a :: as, b :: bs => a == b && charsStart as bs

/-- Does `s` start with `p`?  Models `String.prototype.startsWith`. -/
def strStarts (p s : String) : Bool := charsStart p.data s.data

/-- Does `s` end with `p`?  Models `String.prototype.endsWith`. -/
def strEnds (p s : String) : Bool := charsStart p.data.reverse s.data.reverse

/-- Split a character list on `/`, like `String.prototype.split("/")`. -/
def splitSlash : List Char → List (List Char)
  | [] => [[]]
  | c :: rest =>
    if c = '/' then [] :: splitSlash rest
    else
      match splitSlash rest with
      | [] => [[c]]
      | seg :: segs => (c :: seg) :: segs

/-- Join segments with `/` between them. -/
def joinSegs : List String → String
  | [] => ""
  | [s] => s
  | s :: rest => s ++ "/" ++ joinSegs rest

/-- Lowercase a string, like `String.prototype.toLowerCase` on ASCII. -/
def strLower (s : String) : String := String.mk (s.data.map Char.toLower)

/-- Three-way code-point comparison of two character lists, as an `Int`
sign.  Models `String.prototype.localeCompare` on the ASCII
digit-and-hyphen timestamp strings the engine compares (for those, the
ICU default collation coincides with code-point order). -/
def charsCmp : List Char → List Char → Int
  | [], [] => 0
  | [], _ :: _ => -1
  | _ :: _, [] => 1
  | a :: as, b :: bs =>
    if a < b then -1 else if b < a then 1 else charsCmp as bs

/-! ## The POSIX `path` module -/

/-- Segments of a path: split on `/` and drop empty and `.` parts. -/
def pathSegs (p : String) : List String :=
  ((splitSlash p.data).map String.mk).filter (fun s => s != "" && s != ".")

/-- `..`-resolution of `path.normalize`: `acc` holds the output segments
in reverse.  Inside an absolute path a surplus `..` is dropped; inside a
relative path it is kept. -/
def resolveDots (isAbs : Bool) : List String → List String → List String
  | acc, [] => acc.reverse
  | acc, s :: rest =>
    if s = ".." then
      match acc with
      | [] => if isAbs then resolveDots isAbs [] rest else resolveDots isAbs [".."] rest
      | a :: acc2 =>
        if a = ".." then resolveDots isAbs (s :: a :: acc2) rest
        else resolveDots isAbs acc2 rest
    else resolveDots isAbs (s :: acc) rest

/-- Node's `path.normalize` for POSIX paths. -/
def normalizePath (p : String) : String :=
  if p = "" then "." else
  let isAbs := charsStart ['/'] p.data
  let hasTrail := charsStart ['/'] p.data.reverse && p.data.length != 1
  let body := joinSegs (resolveDots isAbs [] (pathSegs p))
  if isAbs then
    (if body = "" then "/" else "/" ++ body ++ (if hasTrail then "/" else ""))
  else
    (if body = "" then "." else body ++ (if hasTrail then "/" else ""))

/-- Node's `path.join` for two POSIX components. -/
def pathJoin (a b : String) : String :=
  if a = "" && b = "" then "." else
  if a = "" then normalizePath b else
  if b = "" then normalizePath a else
  normalizePath (a ++ "/" ++ b)

/-- Characters of the portion after the last `/` (the base name), taken
from the reversed character list. -/
def baseRev (l : List Char) : List Char := l.takeWhile (fun c => c != '/')

/-- Node's `path.basename` (POSIX, no trailing-slash input). -/
def pathBasename (p : String) : String := String.mk (baseRev p.data.reverse).reverse

/-- The `dir` field of Node's `path.parse`: everything before the last
`/`; `""` when there is no slash; `"/"` when the only slash is the
leading one. -/
def parseDir (p : String) : String :=
  let rev := p.data.reverse
  let rest := (rev.dropWhile (fun c => c != '/')).drop 1
  if rest.isEmpty then (if charsStart ['/'] p.data && p != "/" then "/" else "")
  else String.mk rest.reverse

/-- Node's `path.dirname` (POSIX). -/
def pathDirname (p : String) : String :=
  let d := parseDir p
  if d = "" then (if charsStart ['/'] p.data then "/" else ".") else d

/-- The `ext` field of Node's `path.parse`: from the last `.` of the
base name, unless that dot is its first character. -/
def parseExt (p : String) : String :=
  let base := (baseRev p.data.reverse)
  let pre := base.takeWhile (fun c => c != '.')
  if pre.length = base.length || pre.length + 1 = base.length then ""
  else String.mk ('.' :: pre.reverse)

/-- The `name` field of Node's `path.parse`: the base name without
`parseExt`. -/
def parseName (p : String) : String :=
  let base := (baseRev p.data.reverse).reverse
  let ext := parseExt p
  String.mk (base.take (base.length - ext.data.length))

/-- Strip a Windows drive prefix, the regex `^[a-zA-Z]:` of the source. -/
def stripDrive (s : String) : String :=
  match s.data with
  | a :: b :: rest => if a.isAlpha && b = ':' then String.mk rest else s
  | _ => s

/-- Strip leading path separators, the regex `^[/\\]+` of the source. -/
def stripLeadingSeps (s : String) : String :=
  String.mk (s.data.dropWhile (fun c => c = '/' || c = '\\'))

/-- Node's `path.relative(from, to)` for clean absolute POSIX paths:
drop the common leading segments, then climb with `..` and descend. -/
def pathRelative (f t : String) : String :=
  let rec dropCommon : List String → List String → List String × List String
    | a :: as, b :: bs => if a = b then dropCommon as bs else (a :: as, b :: bs)
    | as, bs => (as, bs)
  let p := dropCommon (pathSegs (normalizePath f)) (pathSegs (normalizePath t))
  joinSegs (List.replicate p.1.length ".." ++ p.2)

/-! ## Data model: metadata records, operations, the store state, and
the host environment -/

/-- The sidecar descriptor of one backup entry (`BackupMetadata` of
`types.ts`; `createBackupMetadata` of the source fills every field, and
folder backups reuse the same record shape). -/
structure BackupMetadata where
  original_path : String
  original_filename : String
  timestamp : String
  created_at : String
  backup_path : String
  relative_path : String
  agent_context : Option String
deriving DecidableEq, Repr

/-- One tracked operation (`Operation` of `types.ts`). -/
structure Operation where
  id : String
  type : String
  progress : Nat
  cancelled : Bool
  status : String
deriving DecidableEq, Repr

/-- The host environment: configuration read from the process
environment, and the impure host functions the engine calls, as oracles.
`dateMs s` models `new Date(s).getTime()`, with `none` for `NaN`. -/
structure Env where
  backupDir : String
  emergencyDir : String
  maxVersions : Nat
  cwd : String
  clock : Nat → String
  isoClock : Nat → String
  uuid : Nat → String
  glob : String → String → Bool
  dateMs : String → Option Int

/-- The mutable world: regular file contents, existing directories,
parsed sidecar files, the in-memory operations map, and the two oracle
cursors (`tick` for the clocks, `opCtr` for `crypto.randomUUID`). -/
structure FS where
  files : List (String × List Nat)
  dirs : List String
  metas : List (String × BackupMetadata)
  ops : List (String × Operation)
  tick : Nat
  opCtr : Nat
deriving DecidableEq, Repr

/-- Create-or-overwrite insertion into an association list; the new
binding shadows and removes any previous binding of the key. -/
def upsert {α : Type} (l : List (String × α)) (k : String) (v : α) :
    List (String × α) :=
  (k, v) :: l.filter (fun kv => kv.1 != k)

/-- Write a regular file (`fs.writeFileSync` / the target of
`copyFile`). -/
def FS.writeFile (fs : FS) (p : String) (c : List Nat) : FS :=
  { fs with files := upsert fs.files p c }

/-- `fsPromises.mkdir(p, { recursive: true })`, modelled as making `p`
itself exist as a directory. -/
def FS.mkdir (fs : FS) (p : String) : FS :=
  { fs with dirs := if fs.dirs.contains p then fs.dirs else p :: fs.dirs }

/-- `fs.unlinkSync` under the source's log-and-continue `catch`:
remove the path's file binding when present, do nothing otherwise. -/
def FS.unlinkIfExists (fs : FS) (p : String) : FS :=
  { fs with files := fs.files.filter (fun kv => kv.1 != p) }

/-- `fs.existsSync`: a regular file, a directory, or a sidecar file. -/
def FS.existsSync : FS → String → Bool
  | ⟨files, dirs, metas, _, _, _⟩, p =>
    (files.lookup p).isSome || dirs.contains p || (metas.lookup p).isSome

/-- Is `p` strictly below the directory `root` (the paths a recursive
walk of `root` can reach)? -/
def isUnder (root p : String) : Bool := strStarts (root ++ "/") p

/-! ## `utils.ts` -/

/-- `validateFileExists`: `stat` then `isFile`.  The inner
`Not a file` throw is swallowed by the function's own `catch`, so every
failure surfaces as `File not found`. -/
def validateFileExists : FS → String → Except String Unit
  | ⟨files, _, metas, _, _, _⟩, p =>
    if (files.lookup p).isSome || (metas.lookup p).isSome then .ok ()
    else .error ("File not found: " ++ p)

/-- `validateFolderExists`: as above, every failure (missing path or a
non-directory) surfaces as `Folder not found`. -/
def validateFolderExists : FS → String → Except String Unit
  | ⟨_, dirs, _, _, _, _⟩, p =>
    if dirs.contains p then .ok ()
    else .error ("Folder not found: " ++ p)

/-- `checkOperationCancelled`'s condition:
`operationId && operations.get(operationId)?.cancelled`. -/
def isCancelled : FS → String → Bool
  | ⟨_, _, _, ops, _, _⟩, opId =>
    match ops.lookup opId with
    | some op => op.cancelled
    | none => false

/-! ## Operation tracking -/

/-- `createOperation`: a fresh id from `crypto.randomUUID`, registered
in the operations map with `progress 0`, not cancelled, `running`. -/
def createOperation (env : Env) (fs : FS) (ty : String) : String × FS :=
  let id := env.uuid fs.opCtr
  (id, { fs with
    ops := upsert fs.ops id { id := id, type := ty, progress := 0,
                              cancelled := false, status := "running" }
    opCtr := fs.opCtr + 1 })

/-- `cancelOperation`: mark an operation cancelled when the map still
holds it; report whether it was found.  Nothing ever removes entries
from the map, so this also finds operations whose call has finished. -/
def cancelOperation (fs : FS) (opId : String) : Bool × FS :=
  match fs.ops.lookup opId with
  | some op =>
    (true, { fs with ops := upsert fs.ops opId { op with cancelled := true } })
  | none => (false, fs)

/-! ## Path mapper -/

/-- `generateTimestamp` inside the engine: one observation of the wall
clock (the pure rendering of date components is modelled separately
below as `generateTimestampOf`). -/
def generateTimestamp (env : Env) (fs : FS) : String × FS :=
  (env.clock fs.tick, { fs with tick := fs.tick + 1 })

/-- `getBackupDir`: mirror the original parent directory (drive prefix
and leading separators removed) below the backup root. -/
def getBackupDir (env : Env) (filePath : String) : String :=
  let normalized := normalizePath filePath
  let rel := stripLeadingSeps (stripDrive (parseDir normalized))
  pathJoin env.backupDir rel

/-- `getBackupFilename`: `<name><ext>.<timestamp>`. -/
def getBackupFilename (filePath timestamp : String) : String :=
  parseName filePath ++ parseExt filePath ++ "." ++ timestamp

/-- `getBackupMetadataFilename`: always `<backup_path>.meta.json`. -/
def getBackupMetadataFilename (backupFilePath : String) : String :=
  backupFilePath ++ ".meta.json"

/-- `getBackupFolderName`: `<basename>.<timestamp>`. -/
def getBackupFolderName (folderPath timestamp : String) : String :=
  pathBasename folderPath ++ "." ++ timestamp

/-- `createBackupMetadata`: fills the descriptor; reads the ISO clock
once (`new Date().toISOString()`). -/
def createBackupMetadata (env : Env) (fs : FS) (filePath timestamp backupPath : String)
    (agentContext : Option String) : BackupMetadata × FS :=
  ({ original_path := filePath
     original_filename := pathBasename filePath
     timestamp := timestamp
     created_at := env.isoClock fs.tick
     backup_path := backupPath
     relative_path := pathRelative env.cwd backupPath
     agent_context := agentContext },
   { fs with tick := fs.tick + 1 })

/-! ## Metadata store -/

/-- `saveBackupMetadata` (`fs.writeFileSync` of pretty JSON). -/
def saveBackupMetadata (fs : FS) (metadataPath : String) (m : BackupMetadata) : FS :=
  { fs with metas := upsert fs.metas metadataPath m }

/-- `readBackupMetadata`: `null` (here `none`) on a missing file. -/
def readBackupMetadata : FS → String → Option BackupMetadata
  | ⟨_, _, metas, _, _, _⟩, metadataPath => metas.lookup metadataPath

/-- `isFolderMetadata`: truthy `original_path` and `backup_path`, the
latter not itself a sidecar path, existing on disk as a directory. -/
def isFolderMetadata : FS → BackupMetadata → Bool
  | ⟨_, dirs, _, _, _, _⟩, m =>
    m.original_path != "" && m.backup_path != "" &&
    !(strEnds ".meta.json" m.backup_path) && dirs.contains m.backup_path

/-- `isParentPath`: case-insensitive prefix test after appending the
separator to both normalised paths. -/
def isParentPath (parentPath childPath : String) : Bool :=
  strStarts (strLower (normalizePath parentPath) ++ "/")
    (strLower (normalizePath childPath) ++ "/")

/-- `findAllBackupMetadataFiles`: the recursive walk of a store root,
collecting every `.meta.json` file below it, in store order; empty when
the root directory does not exist. -/
def findAllBackupMetadataFiles : FS → String → List (String × BackupMetadata)
  | ⟨_, dirs, metas, _, _, _⟩, root =>
    if dirs.contains root then metas.filter (fun pm => isUnder root pm.1)
    else []

/-! ## The JavaScript sort -/

/-- One stable insertion for `Array.prototype.sort`: a comparator value
that is `NaN` has already been collapsed to `0` by the caller, matching
the specification's `SortCompare` coercion. -/
def jsInsert {α : Type} (cmp : α → α → Int) (x : α) : List α → List α
  | [] => [x]
  | y :: ys => if cmp x y < 0 then x :: y :: ys else y :: jsInsert cmp x ys

/-- `Array.prototype.sort` with a consistent comparator: a stable sort
(insertion sort; V8's sort is stable, and for a consistent comparator
every stable sort agrees). -/
def jsSort {α : Type} (cmp : α → α → Int) (l : List α) : List α :=
  l.foldl (fun acc x => jsInsert cmp x acc) []

/-- The comparator value `dateMs a - dateMs b`, with the `NaN` cases
(either side unparseable) collapsed to `0` as `SortCompare` does. -/
def dateCmp (env : Env) (a b : String) : Int :=
  match env.dateMs a, env.dateMs b with
  | some x, some y => x - y
  | _, _ => 0

/-! ## Lookup of backups -/

/-- `findBackupsByFilePath`: read every descriptor below the backup
root, keep exact `original_path` matches that are not folder entries,
then sort newest first by `new Date(timestamp).getTime()`. -/
def findBackupsByFilePath (env : Env) (fs : FS) (filePath : String) :
    List BackupMetadata :=
  let found := (findAllBackupMetadataFiles fs env.backupDir).filterMap
    (fun pm =>
      if pm.2.original_path == filePath && !(isFolderMetadata fs pm.2)
      then some pm.2 else none)
  jsSort (fun a b => dateCmp env b.timestamp a.timestamp) found

/-- `findBackupsByFolderPath`: folder entries whose original path is the
requested folder, an ancestor of it, or a descendant of it; newest first
by `localeCompare`. -/
def findBackupsByFolderPath (env : Env) (fs : FS) (folderPath : String) :
    List BackupMetadata :=
  let found := (findAllBackupMetadataFiles fs env.backupDir).filterMap
    (fun pm =>
      if isFolderMetadata fs pm.2 &&
         (pm.2.original_path == folderPath ||
          isParentPath pm.2.original_path folderPath ||
          isParentPath folderPath pm.2.original_path)
      then some pm.2 else none)
  jsSort (fun a b => charsCmp b.timestamp.data a.timestamp.data) found

/-- `findBackupByTimestamp`: reconstruct the canonical backup path for
`(filePath, timestamp)` through the path mapper and read its sidecar;
reject folder entries. -/
def findBackupByTimestamp (env : Env) (fs : FS) (filePath timestamp : String) :
    Option BackupMetadata :=
  let backupPath := pathJoin (getBackupDir env filePath)
    (getBackupFilename filePath timestamp)
  match readBackupMetadata fs (backupPath ++ ".meta.json") with
  | some m => if isFolderMetadata fs m then none else some m
  | none => none

/-! ## Retention manager -/

/-- `cleanupOldBackups`: list the versions of the path, and when the
count exceeds `MAX_VERSIONS`, sort with the comparator
`new Date(a.timestamp).getTime() - new Date(b.timestamp).getTime()` and
unlink the leading `count - MAX_VERSIONS` backup files (each delete
failure is caught and skipped).  Returns the number of versions kept. -/
def cleanupOldBackups (env : Env) (fs : FS) (filePath : String) : Nat × FS :=
  let backups := findBackupsByFilePath env fs filePath
  if backups.length > env.maxVersions then
    let sorted := jsSort (fun a b => dateCmp env a.timestamp b.timestamp) backups
    let toRemove := sorted.take (backups.length - env.maxVersions)
    (env.maxVersions, toRemove.foldl (fun s b => s.unlinkIfExists b.backup_path) fs)
  else (backups.length, fs)

/-! ## File copy -/

/-- `fsPromises.copyFile`: byte-for-byte copy; fails when the source is
not a regular file. -/
def copyFile (fs : FS) (src dst : String) : FS × Except String Unit :=
  match fs.files.lookup src with
  | some c => (fs.writeFile dst c, .ok ())
  | none => (fs, .error ("ENOENT: no such file, copyfile " ++ src))

/-! ## Emergency safety net -/

/-- The emergency mirror directory for an original path. -/
def emergencyDirOf (env : Env) (filePath : String) : String :=
  pathJoin env.emergencyDir
    (stripLeadingSeps (stripDrive (parseDir (normalizePath filePath))))

/-- The emergency payload path for an original path and timestamp:
`<name><ext>.emergency.<timestamp>` inside the mirror directory. -/
def emergencyPayloadPath (env : Env) (filePath timestamp : String) : String :=
  pathJoin (emergencyDirOf env filePath)
    (parseName (normalizePath filePath) ++ parseExt (normalizePath filePath) ++
      ".emergency." ++ timestamp)

/-- The path of the sidecar `createEmergencyBackup` writes: directly in
the emergency root, named `<name>.emergency.<timestamp>.meta.json` (the
extension and the mirrored directory are not part of it). -/
def emergencyMetadataPath (env : Env) (filePath timestamp : String) : String :=
  pathJoin env.emergencyDir
    (parseName (normalizePath filePath) ++ ".emergency." ++ timestamp ++ ".meta.json")

/-- `createEmergencyBackup`: no-op (`none`) when the source is missing;
otherwise copy the current content into the emergency mirror and write
the descriptor.  A copy failure is caught and reported as `none`, with
the directory creations that already happened kept. -/
def createEmergencyBackup (env : Env) (fs : FS) (filePath : String) :
    Option String × FS :=
  if !(fs.existsSync filePath) then (none, fs)
  else
    let fs := if fs.dirs.contains env.emergencyDir then fs else fs.mkdir env.emergencyDir
    let (timestamp, fs) := generateTimestamp env fs
    let eDir := emergencyDirOf env filePath
    let fs := fs.mkdir eDir
    let backupPath := emergencyPayloadPath env filePath timestamp
    match fs.files.lookup filePath with
    | none => (none, fs)
    | some c =>
      let fs := fs.writeFile backupPath c
      let (m, fs) := createBackupMetadata env fs filePath timestamp backupPath
        (some "Emergency backup created before restoration")
      let fs := saveBackupMetadata fs (emergencyMetadataPath env filePath timestamp) m
      (some backupPath, fs)

/-! ## Restore -/

/-- `restoreBackup`: locate the entry by scanning descriptors for the
original path and matching the timestamp; optionally snapshot the
current file (again); then require the payload and the original to
exist, and copy the payload over the original. -/
def restoreBackup (env : Env) (fs : FS) (filePath timestamp : String)
    (makeEmergency : Bool) : FS × Except String Unit :=
  let backups := findBackupsByFilePath env fs filePath
  match backups.find? (fun b => b.timestamp == timestamp) with
  | none => (fs, .error ("Backup with timestamp " ++ timestamp ++
      " not found for " ++ filePath))
  | some b =>
    let fs := if makeEmergency then (createEmergencyBackup env fs filePath).2 else fs
    if b.backup_path == "" || !(fs.existsSync b.backup_path) then
      (fs, .error ("Backup file not found: " ++ b.backup_path))
    else if !(fs.existsSync filePath) then
      (fs, .error ("Original file not found: " ++ filePath))
    else copyFile fs b.backup_path filePath

/-! ## Tool handlers (the dispatch `switch` of `index.ts`; each case
first registers a fresh operation).  The `logProgress` calls of the
source read the module-level `currentOperationId`, which the handler
shadows with its own local and never assigns, so they never update any
operation and are omitted here. -/

/-- Result record of `backup_restore`. -/
structure RestoreResult where
  restored_path : String
  timestamp : String
deriving DecidableEq, Repr

/-- Result record of `mcp_cancel`. -/
structure CancelResult where
  success : Bool
  status : Option String
  errMsg : Option String
deriving DecidableEq, Repr

/-- The `backup_create` handler: validate, stamp, mirror the parent
directory, copy the file, write the sidecar, run retention.  Returns
the metadata with the versions kept. -/
def handleBackupCreate (env : Env) (fs0 : FS) (file_path : String)
    (agent_context : Option String) : FS × Except String (BackupMetadata × Nat) :=
  let (opId, fs) := createOperation env fs0 "backup_create"
  if file_path = "" then (fs, .error "Invalid params: file_path is required") else
  let filePath := normalizePath file_path
  match validateFileExists fs filePath with
  | .error e => (fs, .error e)
  | .ok () =>
    let (timestamp, fs) := generateTimestamp env fs
    let backupDir := getBackupDir env filePath
    let fs := fs.mkdir backupDir
    let backupPath := pathJoin backupDir (getBackupFilename filePath timestamp)
    if isCancelled fs opId then (fs, .error "Operation cancelled") else
    match copyFile fs filePath backupPath with
    | (fs, .error e) => (fs, .error e)
    | (fs, .ok ()) =>
      if isCancelled fs opId then
        (fs.unlinkIfExists backupPath, .error "Operation cancelled")
      else
        let (m, fs) := createBackupMetadata env fs filePath timestamp backupPath
          agent_context
        let fs := saveBackupMetadata fs (getBackupMetadataFilename backupPath) m
        let (kept, fs) := cleanupOldBackups env fs filePath
        (fs, .ok (m, kept))

/-- The `backup_list` handler: require the original file to exist, then
scan and sort newest first by `localeCompare`. -/
def handleBackupList (env : Env) (fs0 : FS) (file_path : String) :
    FS × Except String (List BackupMetadata) :=
  let (_, fs) := createOperation env fs0 "backup_list"
  if file_path = "" then (fs, .error "Invalid params: file_path is required") else
  let filePath := normalizePath file_path
  match validateFileExists fs filePath with
  | .error e => (fs, .error e)
  | .ok () =>
    let backups := findBackupsByFilePath env fs filePath
    (fs, .ok (jsSort (fun a b => charsCmp b.timestamp.data a.timestamp.data) backups))

/-- The `backup_folder_list` handler: require the original folder to
exist, then scan and sort newest first. -/
def handleBackupFolderList (env : Env) (fs0 : FS) (folder_path : String) :
    FS × Except String (List BackupMetadata) :=
  let (_, fs) := createOperation env fs0 "backup_folder_list"
  if folder_path = "" then (fs, .error "Invalid params: folder_path is required") else
  let folderPath := normalizePath folder_path
  match validateFolderExists fs folderPath with
  | .error e => (fs, .error e)
  | .ok () =>
    let backups := findBackupsByFolderPath env fs folderPath
    (fs, .ok (jsSort (fun a b => charsCmp b.timestamp.data a.timestamp.data) backups))

/-- The `backup_restore` handler: locate the entry by its canonical
path, make the target's parent directory, snapshot the current file if
requested, and delegate to `restoreBackup` (which snapshots again when
the flag is set). -/
def handleBackupRestore (env : Env) (fs0 : FS) (file_path timestamp : String)
    (create_emergency_backup : Bool) : FS × Except String RestoreResult :=
  let (opId, fs) := createOperation env fs0 "backup_restore"
  if file_path = "" then (fs, .error "Invalid params: file_path is required") else
  if timestamp = "" then (fs, .error "Invalid params: timestamp is required") else
  let filePath := normalizePath file_path
  match findBackupByTimestamp env fs filePath timestamp with
  | none => (fs, .error ("Backup with timestamp " ++ timestamp ++
      " not found for " ++ filePath))
  | some _ =>
    if isCancelled fs opId then (fs, .error "Operation cancelled") else
    let fs := fs.mkdir (pathDirname filePath)
    if isCancelled fs opId then (fs, .error "Operation cancelled") else
    let fs := if create_emergency_backup
      then (createEmergencyBackup env fs filePath).2 else fs
    match restoreBackup env fs filePath timestamp create_emergency_backup with
    | (fs, .ok ()) => (fs, .ok { restored_path := filePath, timestamp := timestamp })
    | (fs, .error e) => (fs, .error e)

/-- The `mcp_cancel` handler. -/
def handleMcpCancel (env : Env) (fs0 : FS) (operationId : String) :
    FS × Except String CancelResult :=
  let (_, fs) := createOperation env fs0 "mcp_cancel"
  if operationId = "" then (fs, .error "Invalid params: operationId is required") else
  let r := cancelOperation fs operationId
  if r.1 then
    (r.2, .ok { success := true, status := some "cancelled", errMsg := none })
  else
    (r.2, .ok { success := false, status := none,
                errMsg := some ("Operation " ++ operationId ++
                  " not found or already completed") })

/-! ## Generic lemmas about the store primitives -/

deriving instance DecidableEq for Except

theorem lookup_upsert_self {α : Type} (l : List (String × α)) (k : String) (v : α) :
    (upsert l k v).lookup k = some v := by
  simp [upsert, List.lookup]

theorem lookup_filter_keyne {α : Type} (l : List (String × α)) (p q : String)
    (h : q ≠ p) :
    (l.filter (fun kv => kv.1 != p)).lookup q = l.lookup q := by
  induction l with
  | nil => rfl
  | cons hd tl ih =>
    cases hd with
    | mk a b =>
      by_cases hk : a = p
      · have h1 : ((a, b).1 != p) = false := by simp [hk]
        have hq : (q == a) = false := by
          rw [beq_eq_false_iff_ne, hk]
          exact h
        simp only [List.filter_cons, h1, List.lookup_cons, hq]
        exact ih
      · have h1 : ((a, b).1 != p) = true := by simp [hk]
        simp only [List.filter_cons, h1, if_true, List.lookup_cons]
        cases hqa : (q == a) with
        | true => rfl
        | false => exact ih

theorem lookup_upsert_ne {α : Type} (l : List (String × α)) (k q : String) (v : α)
    (h : q ≠ k) :
    (upsert l k v).lookup q = l.lookup q := by
  have hq : (q == k) = false := by simp [beq_eq_false_iff_ne, h]
  simp only [upsert, List.lookup, hq]
  exact lookup_filter_keyne l k q h

theorem mem_of_lookup_some {α : Type} {l : List (String × α)} {q : String} {v : α}
    (h : l.lookup q = some v) : (q, v) ∈ l := by
  induction l with
  | nil => simp [List.lookup] at h
  | cons hd tl ih =>
    cases hd with
    | mk a b =>
      by_cases hqa : q = a
      · subst hqa
        simp only [List.lookup, beq_self_eq_true] at h
        cases h
        exact List.mem_cons_self _ _
      · have : (q == a) = false := by simp [beq_eq_false_iff_ne, hqa]
        simp only [List.lookup, this] at h
        exact List.mem_cons_of_mem _ (ih h)

theorem jsInsert_length {α : Type} (cmp : α → α → Int) (x : α) (l : List α) :
    (jsInsert cmp x l).length = l.length + 1 := by
  induction l with
  | nil => rfl
  | cons y ys ih =>
    simp only [jsInsert]
    by_cases h : cmp x y < 0
    · simp [h]
    · simp [h, ih]

theorem jsInsert_mem {α : Type} (cmp : α → α → Int) (x y : α) (l : List α) :
    y ∈ jsInsert cmp x l ↔ y = x ∨ y ∈ l := by
  induction l with
  | nil => simp [jsInsert]
  | cons z zs ih =>
    simp only [jsInsert]
    by_cases h : cmp x z < 0
    · simp only [if_pos h, List.mem_cons]
    · simp only [if_neg h, List.mem_cons, ih]
      tauto

theorem jsSort_fold_mem {α : Type} (cmp : α → α → Int) (l acc : List α) (y : α) :
    y ∈ l.foldl (fun a x => jsInsert cmp x a) acc ↔ y ∈ acc ∨ y ∈ l := by
  induction l generalizing acc with
  | nil => simp
  | cons z zs ih =>
    simp only [List.foldl_cons, ih, jsInsert_mem, List.mem_cons]
    tauto

theorem jsSort_mem {α : Type} (cmp : α → α → Int) (l : List α) (y : α) :
    y ∈ jsSort cmp l ↔ y ∈ l := by
  simp [jsSort, jsSort_fold_mem]

theorem jsSort_fold_length {α : Type} (cmp : α → α → Int) (l acc : List α) :
    (l.foldl (fun a x => jsInsert cmp x a) acc).length = acc.length + l.length := by
  induction l generalizing acc with
  | nil => simp
  | cons z zs ih =>
    simp only [List.foldl_cons, ih, jsInsert_length, List.length_cons]
    omega

theorem jsSort_length {α : Type} (cmp : α → α → Int) (l : List α) :
    (jsSort cmp l).length = l.length := by
  simp [jsSort, jsSort_fold_length]

theorem jsSort_singleton {α : Type} (cmp : α → α → Int) (x : α) :
    jsSort cmp [x] = [x] := rfl

/-! ## Concrete fixtures used by witnesses and counterexamples -/

/-- A concrete host environment: distinct engine-format wall-clock
readings, sequential uuids, and the V8 behaviour of
`new Date("YYYYMMDD-HHMMSS-mmm")`: that string is not
ISO-8601 and V8's fallback parser rejects it (an 8-digit leading
number is out of range as a year), so `getTime()` yields `NaN`,
modelled as `none`. -/
def envX : Env :=
  { backupDir := "/bk"
    emergencyDir := "/em"
    maxVersions := 10
    cwd := "/cwd"
    clock := fun n =>
      ["20250101-000000-000", "20250101-000000-001", "20250101-000000-002",
       "20250101-000000-003", "20250101-000000-004",
       "20250101-000000-005"].getD n "20250101-000000-009"
    isoClock := fun _ => "2025-01-01T00:00:00.000Z"
    uuid := fun n => ["op0", "op1", "op2", "op3"].getD n "opX"
    glob := fun _ _ => false
    dateMs := fun _ => none }

/-- A concrete starting store: one original file, the backup root, and
the original's parent directory. -/
def fsX : FS :=
  { files := [("/w/f.txt", [1, 2, 3])]
    dirs := ["/bk", "/w"]
    metas := []
    ops := []
    tick := 0
    opCtr := 0 }

/-! ## Congruence of the read-only lookups in the state fields they
read (handlers thread states whose other fields differ) -/

theorem isFolderMetadata_congr {fs fs2 : FS} (m : BackupMetadata)
    (hd : fs2.dirs = fs.dirs) :
    isFolderMetadata fs2 m = isFolderMetadata fs m := by
  simp only [isFolderMetadata, hd]

theorem findBackupByTimestamp_congr {env : Env} {fs fs2 : FS} {p t : String}
    (hm : fs2.metas = fs.metas) (hd : fs2.dirs = fs.dirs) :
    findBackupByTimestamp env fs2 p t = findBackupByTimestamp env fs p t := by
  simp only [findBackupByTimestamp, readBackupMetadata, isFolderMetadata, hm, hd]

theorem findAllBackupMetadataFiles_congr {fs fs2 : FS} {root : String}
    (hm : fs2.metas = fs.metas) (hd : fs2.dirs = fs.dirs) :
    findAllBackupMetadataFiles fs2 root = findAllBackupMetadataFiles fs root := by
  simp only [findAllBackupMetadataFiles, hm, hd]

theorem findBackupsByFilePath_congr {env : Env} {fs fs2 : FS} {p : String}
    (hm : fs2.metas = fs.metas) (hd : fs2.dirs = fs.dirs) :
    findBackupsByFilePath env fs2 p = findBackupsByFilePath env fs p := by
  simp only [findBackupsByFilePath, findAllBackupMetadataFiles, isFolderMetadata,
    hm, hd]

theorem validateFileExists_congr {fs fs2 : FS} {p : String}
    (hf : fs2.files = fs.files) (hm : fs2.metas = fs.metas) :
    validateFileExists fs2 p = validateFileExists fs p := by
  simp only [validateFileExists, hf, hm]

theorem existsSync_congr {fs fs2 : FS} {p : String} (hf : fs2.files = fs.files)
    (hd : fs2.dirs = fs.dirs) (hm : fs2.metas = fs.metas) :
    fs2.existsSync p = fs.existsSync p := by
  simp only [FS.existsSync, hf, hd, hm]

/-! ## Result-record abbreviations (structure literals kept on one
line for readability) -/

/-- The running operation record `createOperation` registers. -/
def opRunning (id ty : String) : Operation := ⟨id, ty, 0, false, "running"⟩

/-- The `mcp_cancel` success payload. -/
def cancelSuccessResult : CancelResult := ⟨true, some "cancelled", none⟩

/-- The `mcp_cancel` not-found payload. -/
def cancelNotFoundResult (opId : String) : CancelResult :=
  ⟨false, none, some ("Operation " ++ opId ++ " not found or already completed")⟩

/-! ## C7 — cancel after completion -/

/--
C7 counterexample.  Claim C7 states that cancelling an operation whose
dispatch call has already finished is a no-op on engine state that
reports not-found (`success = false`).  On the code it is not:
`operations` entries are never removed, so after a completed
`backup_create` (operation id `op0`), `mcp_cancel op0` still finds the
entry, marks it cancelled, and reports `success = true` with status
`cancelled`.
-/
theorem cancel_after_completion_reports_success_cex :
    (match (handleBackupCreate envX fsX "/w/f.txt" none).2 with
     | .ok _ => true
     | .error _ => false) = true ∧
    (handleMcpCancel envX (handleBackupCreate envX fsX "/w/f.txt" none).1 "op0").2 =
      .ok cancelSuccessResult ∧
    (match ((handleMcpCancel envX (handleBackupCreate envX fsX "/w/f.txt" none).1
        "op0").1.ops.lookup "op0") with
     | some op => op.cancelled
     | none => false) = true := by
  decide

/--
C7, amended.  The operations map never drops entries, so a cancel call
whose id is still in the map — which includes every operation whose
dispatch call has finished — marks that operation cancelled and reports
success; not-found (`success = false`) is reported only for ids absent
from the map.
-/
theorem cancel_found_marks_cancelled (env : Env) (fs : FS) (opId : String)
    (op : Operation) (hid : opId ≠ "") (hu : env.uuid fs.opCtr ≠ opId)
    (hop : fs.ops.lookup opId = some op) :
    (handleMcpCancel env fs opId).2 = .ok cancelSuccessResult ∧
    (handleMcpCancel env fs opId).1.ops.lookup opId =
      some { op with cancelled := true } ∧
    (∀ id2, id2 ≠ "" → env.uuid fs.opCtr ≠ id2 → fs.ops.lookup id2 = none →
      (handleMcpCancel env fs id2).2 = .ok (cancelNotFoundResult id2)) := by
  refine ⟨?_, ?_, ?_⟩
  · simp only [handleMcpCancel, createOperation, cancelOperation, if_neg hid,
      lookup_upsert_ne _ _ _ _ (Ne.symm hu), hop, cancelSuccessResult]
    simp
  · simp only [handleMcpCancel, createOperation, cancelOperation, if_neg hid,
      lookup_upsert_ne _ _ _ _ (Ne.symm hu), hop]
    simp only [ite_true, eq_self_iff_true, if_true]
    exact lookup_upsert_self _ _ _
  · intro id2 hid2 hu2 hnone
    simp only [handleMcpCancel, createOperation, cancelOperation, if_neg hid2,
      lookup_upsert_ne _ _ _ _ (Ne.symm hu2), hnone, cancelNotFoundResult]
    simp

/-- Witness for `cancel_found_marks_cancelled`: the state after the
completed `backup_create` of the counterexample still holds `op0`. -/
theorem cancel_found_marks_cancelled_witness :
    (handleBackupCreate envX fsX "/w/f.txt" none).1.ops.lookup "op0" =
      some (opRunning "op0" "backup_create") ∧
    ((handleMcpCancel envX (handleBackupCreate envX fsX "/w/f.txt" none).1 "op0").2 =
      .ok cancelSuccessResult ∧
     (handleMcpCancel envX (handleBackupCreate envX fsX "/w/f.txt" none).1
        "op0").1.ops.lookup "op0" =
      some { opRunning "op0" "backup_create" with cancelled := true } ∧
    (∀ id2, id2 ≠ "" →
      envX.uuid (handleBackupCreate envX fsX "/w/f.txt" none).1.opCtr ≠ id2 →
      (handleBackupCreate envX fsX "/w/f.txt" none).1.ops.lookup id2 = none →
      (handleMcpCancel envX (handleBackupCreate envX fsX "/w/f.txt" none).1 id2).2 =
        .ok (cancelNotFoundResult id2))) :=
  ⟨by decide,
   cancel_found_marks_cancelled envX (handleBackupCreate envX fsX "/w/f.txt" none).1
     "op0" (opRunning "op0" "backup_create") (by decide) (by decide) (by decide)⟩

/-! ## C8 — restore with no matching entry -/

/--
C8.  When the engine locates no entry for `(P, T)` — no readable
non-folder descriptor at the canonical sidecar path the path mapper
derives for that pair — `backup_restore` fails with the not-found error
before the target directory is made, before any emergency snapshot, and
before any copy: file contents, directories, sidecars and the clock
cursor are all unchanged (only the operation bookkeeping advanced).
This holds in any store state, in particular one whose sidecars mention
`P` under other timestamps.
-/
theorem restore_missing_backup_leaves_state (env : Env) (fs : FS)
    (P T : String) (emerg : Bool) (hP : P ≠ "") (hT : T ≠ "")
    (hfind : findBackupByTimestamp env fs (normalizePath P) T = none) :
    (handleBackupRestore env fs P T emerg).2 =
      .error ("Backup with timestamp " ++ T ++ " not found for " ++ normalizePath P) ∧
    (handleBackupRestore env fs P T emerg).1.files = fs.files ∧
    (handleBackupRestore env fs P T emerg).1.dirs = fs.dirs ∧
    (handleBackupRestore env fs P T emerg).1.metas = fs.metas ∧
    (handleBackupRestore env fs P T emerg).1.tick = fs.tick := by
  simp only [handleBackupRestore, createOperation, if_neg hP, if_neg hT,
    findBackupByTimestamp, readBackupMetadata, isFolderMetadata] at hfind ⊢
  rw [hfind]
  exact ⟨rfl, rfl, rfl, rfl, rfl⟩

/-- Witness for `restore_missing_backup_leaves_state`: a timestamp with
no entry, on a store that holds the original file. -/
theorem restore_missing_backup_leaves_state_witness :
    ("/w/f.txt" ≠ "" ∧ "20990101-000000-000" ≠ "" ∧
     findBackupByTimestamp envX fsX (normalizePath "/w/f.txt")
       "20990101-000000-000" = none) ∧
    ((handleBackupRestore envX fsX "/w/f.txt" "20990101-000000-000" true).2 =
      .error ("Backup with timestamp " ++ "20990101-000000-000" ++
        " not found for " ++ normalizePath "/w/f.txt") ∧
     (handleBackupRestore envX fsX "/w/f.txt" "20990101-000000-000" true).1.files =
       fsX.files ∧
     (handleBackupRestore envX fsX "/w/f.txt" "20990101-000000-000" true).1.dirs =
       fsX.dirs ∧
     (handleBackupRestore envX fsX "/w/f.txt" "20990101-000000-000" true).1.metas =
       fsX.metas ∧
     (handleBackupRestore envX fsX "/w/f.txt" "20990101-000000-000" true).1.tick =
       fsX.tick) :=
  ⟨⟨by decide, by decide, by decide⟩,
   restore_missing_backup_leaves_state envX fsX "/w/f.txt" "20990101-000000-000"
     true (by decide) (by decide) (by decide)⟩

/-! ## C10 — listing requires the original to exist -/

/--
C10.  Both list verbs validate the original path before consulting the
store: when the path is missing (or not of the expected kind — the
validators collapse every failure into their not-found message),
`backup_list` fails with `File not found` and `backup_folder_list`
fails with `Folder not found`, with the store untouched — even when the
store holds descriptors whose `original_path` equals the requested
path, as the witness's store does.
-/
theorem list_requires_existing_original (env : Env) (fs : FS) (P D : String)
    (hP : P ≠ "") (hD : D ≠ "")
    (hfile : (fs.files.lookup (normalizePath P)).isSome = false)
    (hmeta : (fs.metas.lookup (normalizePath P)).isSome = false)
    (hdir : fs.dirs.contains (normalizePath D) = false) :
    (handleBackupList env fs P).2 =
      .error ("File not found: " ++ normalizePath P) ∧
    (handleBackupList env fs P).1.files = fs.files ∧
    (handleBackupList env fs P).1.metas = fs.metas ∧
    (handleBackupFolderList env fs D).2 =
      .error ("Folder not found: " ++ normalizePath D) ∧
    (handleBackupFolderList env fs D).1.files = fs.files ∧
    (handleBackupFolderList env fs D).1.metas = fs.metas := by
  refine ⟨?_, ?_, ?_, ?_, ?_, ?_⟩ <;>
    simp only [handleBackupList, handleBackupFolderList, createOperation,
      if_neg hP, if_neg hD, validateFileExists, validateFolderExists,
      hfile, hmeta, hdir, Bool.false_or, Bool.or_self] <;> rfl

/-- A descriptor literal, in source field order. -/
def mkMeta (orig fname ts iso bp rel : String) (ctx : Option String) :
    BackupMetadata := ⟨orig, fname, ts, iso, bp, rel, ctx⟩

/-- Fixture for the `C10` witness: a store that still holds a
descriptor for `/w/f.txt` although the original file is gone. -/
def fsOrphan : FS :=
  { files := []
    dirs := ["/bk", "/bk/w"]
    metas := [("/bk/w/f.txt.20250101-000000-000.meta.json",
      mkMeta "/w/f.txt" "f.txt" "20250101-000000-000" "2025-01-01T00:00:00.000Z"
        "/bk/w/f.txt.20250101-000000-000" "x" none)]
    ops := []
    tick := 0
    opCtr := 0 }

/-- Witness for `list_requires_existing_original`: the original file and
folder are gone while their descriptor history is still in the store. -/
theorem list_requires_existing_original_witness :
    ("/w/f.txt" ≠ "" ∧ "/w" ≠ "" ∧
     ((fsOrphan.files.lookup (normalizePath "/w/f.txt")).isSome = false ∧
      (fsOrphan.metas.lookup (normalizePath "/w/f.txt")).isSome = false ∧
      fsOrphan.dirs.contains (normalizePath "/w") = false)) ∧
    ((handleBackupList envX fsOrphan "/w/f.txt").2 =
      .error ("File not found: " ++ normalizePath "/w/f.txt") ∧
     (handleBackupList envX fsOrphan "/w/f.txt").1.files = fsOrphan.files ∧
     (handleBackupList envX fsOrphan "/w/f.txt").1.metas = fsOrphan.metas ∧
     (handleBackupFolderList envX fsOrphan "/w").2 =
      .error ("Folder not found: " ++ normalizePath "/w") ∧
     (handleBackupFolderList envX fsOrphan "/w").1.files = fsOrphan.files ∧
     (handleBackupFolderList envX fsOrphan "/w").1.metas = fsOrphan.metas) :=
  ⟨⟨by decide, by decide, by decide, by decide, by decide⟩,
   list_requires_existing_original envX fsOrphan "/w/f.txt" "/w"
     (by decide) (by decide) (by decide) (by decide) (by decide)⟩

/-! ## C3 — retention deletes in discovery order, not by age -/

/-- The environment of the retention counterexample: a cap of one
version; `dateMs` is constantly `none` because V8's `new Date` cannot
parse the engine's `YYYYMMDD-HHMMSS-mmm` format (it is not ISO-8601,
and the fallback parser rejects the 8-digit leading number), so
`getTime()` is `NaN` on every stored timestamp. -/
def envR : Env := { envX with maxVersions := 1 }

/-- Store with two versions of `/w/f.txt` whose directory walk happens
to discover the newer entry first (directory enumeration order is
filesystem-dependent). -/
def fsR : FS :=
  { files := [("/w/f.txt", [0]),
              ("/bk/w/f.txt.20250102-000000-000", [2]),
              ("/bk/w/f.txt.20250101-000000-000", [1])]
    dirs := ["/bk", "/w", "/bk/w"]
    metas := [("/bk/w/f.txt.20250102-000000-000.meta.json",
                mkMeta "/w/f.txt" "f.txt" "20250102-000000-000"
                  "2025-01-02T00:00:00.000Z" "/bk/w/f.txt.20250102-000000-000" "x" none),
              ("/bk/w/f.txt.20250101-000000-000.meta.json",
                mkMeta "/w/f.txt" "f.txt" "20250101-000000-000"
                  "2025-01-01T00:00:00.000Z" "/bk/w/f.txt.20250101-000000-000" "x" none)]
    ops := []
    tick := 0
    opCtr := 0 }

/--
C3.  The retention pass intends to sort ascending by timestamp and
delete the oldest surplus versions (its own comments say "Sort backups
by timestamp (oldest first)" and "Remove oldest backups"), but it sorts
with `new Date(timestamp).getTime()` on the engine's own
`YYYYMMDD-HHMMSS-mmm` strings, which `Date` cannot parse: every
comparator value is `NaN`, `SortCompare` coerces `NaN` to `0`, and the
stable sort leaves discovery order unchanged.  On a store whose walk
discovers the newer of two versions first, with `maxVersions = 1`, the
pass keeps the count contract (`min(N, M) = 1`) but deletes the
*newest* payload and keeps the *oldest* — the opposite of the claim.
-/
theorem cleanup_deletes_newest_at_failing_input :
    (cleanupOldBackups envR fsR "/w/f.txt").1 = 1 ∧
    (cleanupOldBackups envR fsR "/w/f.txt").2.files.lookup
      "/bk/w/f.txt.20250102-000000-000" = none ∧
    (cleanupOldBackups envR fsR "/w/f.txt").2.files.lookup
      "/bk/w/f.txt.20250101-000000-000" = some [1] ∧
    charsCmp "20250101-000000-000".data "20250102-000000-000".data = -1 := by
  decide

/-! ## Framing and evaluation lemmas for the create/restore traces -/

theorem unlink_fold_frame (l : List BackupMetadata) (fs : FS) :
    (l.foldl (fun s b => s.unlinkIfExists b.backup_path) fs).dirs = fs.dirs ∧
    (l.foldl (fun s b => s.unlinkIfExists b.backup_path) fs).metas = fs.metas ∧
    (l.foldl (fun s b => s.unlinkIfExists b.backup_path) fs).ops = fs.ops ∧
    (l.foldl (fun s b => s.unlinkIfExists b.backup_path) fs).tick = fs.tick ∧
    (l.foldl (fun s b => s.unlinkIfExists b.backup_path) fs).opCtr = fs.opCtr := by
  induction l generalizing fs with
  | nil => exact ⟨rfl, rfl, rfl, rfl, rfl⟩
  | cons b bs ih => simpa [FS.unlinkIfExists] using ih (fs.unlinkIfExists b.backup_path)

theorem cleanupOldBackups_frame (env : Env) (fs : FS) (p : String) :
    (cleanupOldBackups env fs p).2.dirs = fs.dirs ∧
    (cleanupOldBackups env fs p).2.metas = fs.metas ∧
    (cleanupOldBackups env fs p).2.ops = fs.ops ∧
    (cleanupOldBackups env fs p).2.tick = fs.tick ∧
    (cleanupOldBackups env fs p).2.opCtr = fs.opCtr := by
  unfold cleanupOldBackups
  by_cases h : (findBackupsByFilePath env fs p).length > env.maxVersions
  · simp only [if_pos h]
    exact unlink_fold_frame _ fs
  · simp only [if_neg h]
    simp

theorem cleanupOldBackups_eq_of_le (env : Env) (fs : FS) (p : String)
    (h : (findBackupsByFilePath env fs p).length ≤ env.maxVersions) :
    cleanupOldBackups env fs p = ((findBackupsByFilePath env fs p).length, fs) := by
  unfold cleanupOldBackups
  rw [if_neg (Nat.not_lt.mpr h)]

theorem isFolderMetadata_false_of_not_dir (fs : FS) (m : BackupMetadata)
    (h : fs.dirs.contains m.backup_path = false) : isFolderMetadata fs m = false := by
  obtain ⟨f, d, mm, o, tk, oc⟩ := fs
  simp only [isFolderMetadata]
  simp only at h
  rw [h, Bool.and_false]

theorem contains_insertDir (dirs : List String) (d q : String)
    (h1 : dirs.contains q = false) (h2 : q ≠ d) :
    (if dirs.contains d then dirs else d :: dirs).contains q = false := by
  by_cases h : dirs.contains d = true
  · rw [if_pos h]
    exact h1
  · rw [if_neg h]
    simp only [List.contains_cons]
    have hq : (q == d) = false := by simp [beq_eq_false_iff_ne, h2]
    rw [hq, h1]
    rfl

/-- The versions of `P` found when the store's sidecar list is the
single match `(MP, m)` in front of entries that never mention `P`. -/
theorem findBackupsByFilePath_single (env : Env) (fs : FS) (P MP : String)
    (m : BackupMetadata) (rest : List (String × BackupMetadata))
    (hroot : fs.dirs.contains env.backupDir = true)
    (hshape : fs.metas = (MP, m) :: rest)
    (hunder : isUnder env.backupDir MP = true)
    (horig : m.original_path = P)
    (hnf : isFolderMetadata fs m = false)
    (hrest : ∀ pm ∈ rest, pm.2.original_path ≠ P) :
    findBackupsByFilePath env fs P = [m] := by
  obtain ⟨f, d, mm, o, tk, oc⟩ := fs
  simp only at hshape
  subst hshape
  simp only [findBackupsByFilePath, findAllBackupMetadataFiles] at *
  rw [hroot]
  simp only [if_true, List.filter_cons, hunder]
  simp only [List.filterMap_cons]
  have hh : (m.original_path == P && !isFolderMetadata ⟨f, d, (MP, m) :: rest, o, tk, oc⟩ m) = true := by
    rw [hnf]
    simp [horig]
  have hrest2 : ∀ pm ∈ rest.filter (fun pm => isUnder env.backupDir pm.1),
      (pm.2.original_path == P) = false := by
    intro pm hpm
    have := hrest pm (List.mem_of_mem_filter hpm)
    simp [beq_eq_false_iff_ne, this]
  have hnil : (rest.filter (fun pm => isUnder env.backupDir pm.1)).filterMap
      (fun pm => if pm.2.original_path == P &&
        !isFolderMetadata ⟨f, d, (MP, m) :: rest, o, tk, oc⟩ pm.2
        then some pm.2 else none) = [] := by
    rw [List.filterMap_eq_nil]
    intro pm hpm
    rw [hrest2 pm hpm]
    simp
  rw [hh]
  simp only [if_true]
  rw [hnil]
  rfl

/-- Full evaluation of a successful `backup_create`: the final state is
the retention pass applied to the state holding the fresh payload at
the mapped backup path and the fresh sidecar next to it. -/
theorem backup_create_run (env : Env) (fs : FS) (P : String) (c : List Nat)
    (ctx : Option String) (hP : P ≠ "") (hnorm : normalizePath P = P)
    (hc : fs.files.lookup P = some c) :
    handleBackupCreate env fs P ctx =
      (let T := env.clock fs.tick
       let BD := getBackupDir env P
       let BP := pathJoin BD (getBackupFilename P T)
       let m : BackupMetadata :=
         ⟨P, pathBasename P, T, env.isoClock (fs.tick + 1), BP,
          pathRelative env.cwd BP, ctx⟩
       let fs1 : FS :=
         ⟨upsert fs.files BP c,
          (if fs.dirs.contains BD then fs.dirs else BD :: fs.dirs),
          upsert fs.metas (getBackupMetadataFilename BP) m,
          upsert fs.ops (env.uuid fs.opCtr) (opRunning (env.uuid fs.opCtr) "backup_create"),
          fs.tick + 2, fs.opCtr + 1⟩
       let r := cleanupOldBackups env fs1 P
       (r.2, .ok (m, r.1))) := by
  simp only [handleBackupCreate, createOperation, generateTimestamp,
    validateFileExists, FS.mkdir, copyFile, FS.writeFile, isCancelled,
    createBackupMetadata, saveBackupMetadata, if_neg hP, hnorm, hc,
    lookup_upsert_self, opRunning, Option.isSome_some, Bool.true_or, if_true]
  simp

/-- Full evaluation of a successful `createEmergencyBackup`: payload
into the emergency mirror directory, descriptor at the root-level
`<name>.emergency.<timestamp>.meta.json` path. -/
theorem createEmergencyBackup_run (env : Env) (fs : FS) (P : String) (c : List Nat)
    (hc : fs.files.lookup P = some c) :
    createEmergencyBackup env fs P =
      (let T := env.clock fs.tick
       let BP := emergencyPayloadPath env P T
       let m : BackupMetadata :=
         ⟨P, pathBasename P, T, env.isoClock (fs.tick + 1), BP,
          pathRelative env.cwd BP,
          some "Emergency backup created before restoration"⟩
       let d1 := if fs.dirs.contains env.emergencyDir then fs.dirs
                 else env.emergencyDir :: fs.dirs
       let d2 := if d1.contains (emergencyDirOf env P) then d1
                 else emergencyDirOf env P :: d1
       (some BP,
        ⟨upsert fs.files BP c, d2,
         upsert fs.metas (emergencyMetadataPath env P T) m,
         fs.ops, fs.tick + 2, fs.opCtr⟩)) := by
  obtain ⟨f, d, mm, o, tk, oc⟩ := fs
  simp only at hc
  by_cases hd : env.emergencyDir ∈ d <;>
    simp [createEmergencyBackup, FS.existsSync, FS.mkdir, generateTimestamp,
      FS.writeFile, createBackupMetadata, saveBackupMetadata, hc, hd]

/-! ## Folder backups (`backup_folder_create`, `createEmergencyFolderBackup`)

`copyFolderContents` (lines 1027-1038) guards against empty paths,
makes the target directory and hands over to the recursive walk.  The
folder handlers call it without `include_pattern`/`exclude_pattern`
(the emergency variant passes none, and the create case is embedded
for the defaulted parameters), so both minimatch guards are falsy and
every entry — file or directory — is copied.  On the flat store that
walk denotes: every directory below the source root re-made below the
target, every file below the source root written below the target,
names retargeted by `path.join`-ing the relative remainder onto the
target.  The pattern logic itself is modelled on trees in the C4
section. -/

/-- `path.join(target, rest)` for the entry `source/rest`. -/
def retargetPath (src tgt p : String) : String :=
  pathJoin tgt (String.mk (p.data.drop (src.data.length + 1)))

/-- `copyFolderContents` without patterns: empty-path guards, target
`mkdir`, then the pattern-free recursive copy of files and
directories. -/
def copyFolderContents (fs : FS) (src tgt : String) : FS × Except String Unit :=
  if src = "" then (fs, .error "Source and target paths are required")
  else if tgt = "" then (fs, .error "Source and target paths are required")
  else
    let fs1 := fs.mkdir tgt
    let nf := (fs.files.filter (fun pc => isUnder src pc.1)).map
      (fun pc => (retargetPath src tgt pc.1, pc.2))
    let nd := (fs.dirs.filter (fun dd => isUnder src dd)).map (retargetPath src tgt)
    ({ fs1 with
       files := nf.foldl (fun l pc => upsert l pc.1 pc.2) fs1.files
       dirs := nd.foldl (fun l dd => if l.contains dd then l else dd :: l) fs1.dirs },
     .ok ())

/-- `fs.rmdirSync(p, { recursive: true })` guarded by `existsSync`. -/
def FS.rmTree (fs : FS) (p : String) : FS :=
  if fs.existsSync p then
    { fs with
      files := fs.files.filter (fun kv => !(isUnder p kv.1) && kv.1 != p)
      dirs := fs.dirs.filter (fun dd => !(isUnder p dd) && dd != p) }
  else fs

/-- The `backup_folder_create` handler (line 424 on): validate, stamp,
mirror the parent directory, copy the folder, write the sidecar at
`` `${backupFolderPath}.meta.json` ``, run retention. -/
def handleBackupFolderCreate (env : Env) (fs0 : FS) (folder_path : String)
    (agent_context : Option String) : FS × Except String (BackupMetadata × Nat) :=
  let (opId, fs) := createOperation env fs0 "backup_folder_create"
  if folder_path = "" then (fs, .error "Invalid params: folder_path is required") else
  let folderPath := normalizePath folder_path
  match validateFolderExists fs folderPath with
  | .error e => (fs, .error e)
  | .ok () =>
    let (timestamp, fs) := generateTimestamp env fs
    let backupDir := getBackupDir env folderPath
    let fs := fs.mkdir backupDir
    let backupFolderPath := pathJoin backupDir (getBackupFolderName folderPath timestamp)
    if isCancelled fs opId then (fs, .error "Operation cancelled") else
    match copyFolderContents fs folderPath backupFolderPath with
    | (fs, .error e) => (fs, .error e)
    | (fs, .ok ()) =>
      if isCancelled fs opId then
        (fs.rmTree backupFolderPath, .error "Operation cancelled")
      else
        let (m, fs) := createBackupMetadata env fs folderPath timestamp
          backupFolderPath agent_context
        let fs := saveBackupMetadata fs (backupFolderPath ++ ".meta.json") m
        let (kept, fs) := cleanupOldBackups env fs folderPath
        (fs, .ok (m, kept))

/-- The emergency payload path of a folder:
`<name>.emergency.<timestamp>` inside the mirror directory (no
extension part, unlike the file variant). -/
def emergencyFolderPayloadPath (env : Env) (folderPath timestamp : String) : String :=
  pathJoin (emergencyDirOf env folderPath)
    (parseName (normalizePath folderPath) ++ ".emergency." ++ timestamp)

/-- `createEmergencyFolderBackup` (lines 1093-1143): no-op (`null`)
when the source is missing; otherwise copy the folder into the
emergency mirror and write the descriptor — like the file variant,
directly into the emergency root at
`<name>.emergency.<timestamp>.meta.json` (the same path expression, so
`emergencyMetadataPath` is reused); its inline metadata object fills
the same fields as `createBackupMetadata`. -/
def createEmergencyFolderBackup (env : Env) (fs : FS) (folderPath : String) :
    Option String × FS :=
  if !(fs.existsSync folderPath) then (none, fs)
  else
    let fs := if fs.dirs.contains env.emergencyDir then fs else fs.mkdir env.emergencyDir
    let (timestamp, fs) := generateTimestamp env fs
    let eDir := emergencyDirOf env folderPath
    let fs := fs.mkdir eDir
    let backupPath := emergencyFolderPayloadPath env folderPath timestamp
    match copyFolderContents fs folderPath backupPath with
    | (fs, .error _) => (none, fs)
    | (fs, .ok ()) =>
      let (m, fs) := createBackupMetadata env fs folderPath timestamp backupPath
        (some "Emergency backup created before restoration")
      let fs := saveBackupMetadata fs (emergencyMetadataPath env folderPath timestamp) m
      (some backupPath, fs)

/-- Full evaluation of a successful `backup_folder_create`: the final
state is the retention pass applied to the state holding the copied
tree at the mapped backup folder path and the fresh sidecar next to
it. -/
theorem backup_folder_create_run (env : Env) (fs : FS) (Q : String)
    (ctx : Option String) (hQ : Q ≠ "") (hnorm : normalizePath Q = Q)
    (hdir : fs.dirs.contains Q = true)
    (hBP : pathJoin (getBackupDir env Q)
      (getBackupFolderName Q (env.clock fs.tick)) ≠ "") :
    handleBackupFolderCreate env fs Q ctx =
      (let T := env.clock fs.tick
       let BD := getBackupDir env Q
       let BP := pathJoin BD (getBackupFolderName Q T)
       let m : BackupMetadata :=
         ⟨Q, pathBasename Q, T, env.isoClock (fs.tick + 1), BP,
          pathRelative env.cwd BP, ctx⟩
       let d1 := if fs.dirs.contains BD then fs.dirs else BD :: fs.dirs
       let d2 := if d1.contains BP then d1 else BP :: d1
       let d3 := ((d1.filter (fun dd => isUnder Q dd)).map
         (retargetPath Q BP)).foldl
           (fun l dd => if l.contains dd then l else dd :: l) d2
       let f1 := ((fs.files.filter (fun pc => isUnder Q pc.1)).map
         (fun pc => (retargetPath Q BP pc.1, pc.2))).foldl
           (fun l pc => upsert l pc.1 pc.2) fs.files
       let fs1 : FS :=
         ⟨f1, d3, upsert fs.metas (BP ++ ".meta.json") m,
          upsert fs.ops (env.uuid fs.opCtr)
            (opRunning (env.uuid fs.opCtr) "backup_folder_create"),
          fs.tick + 2, fs.opCtr + 1⟩
       let r := cleanupOldBackups env fs1 Q
       (r.2, .ok (m, r.1))) := by
  simp only [handleBackupFolderCreate, createOperation, generateTimestamp,
    validateFolderExists, FS.mkdir, copyFolderContents, isCancelled,
    createBackupMetadata, saveBackupMetadata, if_neg hQ, if_neg hBP, hnorm,
    hdir, lookup_upsert_self, opRunning, if_true]
  simp

/-- Full evaluation of a successful `createEmergencyFolderBackup`:
payload tree into the emergency mirror directory, descriptor at the
root-level `<name>.emergency.<timestamp>.meta.json` path. -/
theorem createEmergencyFolderBackup_run (env : Env) (fs : FS) (Q : String)
    (hQ : Q ≠ "") (hQd : fs.dirs.contains Q = true)
    (hBP : emergencyFolderPayloadPath env Q (env.clock fs.tick) ≠ "") :
    createEmergencyFolderBackup env fs Q =
      (let T := env.clock fs.tick
       let BP := emergencyFolderPayloadPath env Q T
       let m : BackupMetadata :=
         ⟨Q, pathBasename Q, T, env.isoClock (fs.tick + 1), BP,
          pathRelative env.cwd BP,
          some "Emergency backup created before restoration"⟩
       let d1 := if fs.dirs.contains env.emergencyDir then fs.dirs
                 else env.emergencyDir :: fs.dirs
       let d2 := if d1.contains (emergencyDirOf env Q) then d1
                 else emergencyDirOf env Q :: d1
       let d3 := if d2.contains BP then d2 else BP :: d2
       let d4 := ((d2.filter (fun dd => isUnder Q dd)).map
         (retargetPath Q BP)).foldl
           (fun l dd => if l.contains dd then l else dd :: l) d3
       let f1 := ((fs.files.filter (fun pc => isUnder Q pc.1)).map
         (fun pc => (retargetPath Q BP pc.1, pc.2))).foldl
           (fun l pc => upsert l pc.1 pc.2) fs.files
       (some BP,
        ⟨f1, d4,
         upsert fs.metas (emergencyMetadataPath env Q T) m,
         fs.ops, fs.tick + 2, fs.opCtr⟩)) := by
  obtain ⟨f, d, mm, o, tk, oc⟩ := fs
  simp only at hQd hBP
  have hQm : Q ∈ d := by simpa using hQd
  by_cases hd : env.emergencyDir ∈ d <;>
    simp [createEmergencyFolderBackup, FS.existsSync, FS.mkdir,
      generateTimestamp, copyFolderContents, FS.writeFile,
      createBackupMetadata, saveBackupMetadata, if_neg hQ, if_neg hBP,
      hQd, hQm, hd]

/-! ## C6 — where a descriptor sits relative to its entry -/

/--
C6 counterexample.  Claim C6 states that after every backup-creating
operation — the emergency variants included — each entry at
`backup_path` has its sidecar at `<backup_path>.meta.json`.  An
emergency file backup violates it: the payload lands in the mirrored
emergency directory, but the descriptor is written directly into the
emergency root under `<name>.emergency.<timestamp>.meta.json` (the
extension and the mirror directory are dropped), so nothing exists at
`<backup_path>.meta.json`.
-/
theorem emergency_descriptor_not_adjacent_cex :
    (createEmergencyBackup envX fsX "/w/f.txt").1 =
      some "/em/w/f.txt.emergency.20250101-000000-000" ∧
    ((createEmergencyBackup envX fsX "/w/f.txt").2.files.lookup
      "/em/w/f.txt.emergency.20250101-000000-000").isSome = true ∧
    (createEmergencyBackup envX fsX "/w/f.txt").2.metas.lookup
      (getBackupMetadataFilename "/em/w/f.txt.emergency.20250101-000000-000") =
      none ∧
    ((createEmergencyBackup envX fsX "/w/f.txt").2.metas.lookup
      "/em/f.emergency.20250101-000000-000.meta.json").isSome = true := by
  decide

/-- A starting store with a folder `/w/d` to back up next to the
original file: one file, the backup root, the parent and the folder. -/
def fsY : FS :=
  { files := [("/w/f.txt", [1, 2, 3])]
    dirs := ["/bk", "/w", "/w/d"]
    metas := []
    ops := []
    tick := 0
    opCtr := 0 }

/--
C6, amended.  Regular backups keep the invariant: `backup_create` and
`backup_folder_create` each write the entry's sidecar exactly at
`<backup_path>.meta.json`, and that sidecar records the entry's
`original_path`.  Both emergency variants break it: the payload goes
to the mirrored `<emergencyRoot>/…/<name><ext>.emergency.<T>` path
(files) or `<emergencyRoot>/…/<name>.emergency.<T>` (folders) while
the descriptor goes to `<emergencyRoot>/<name>.emergency.<T>.meta.json`,
and the adjacent `<backup_path>.meta.json` location is left exactly as
it was — so an emergency entry has no sidecar next to it whenever
those two paths differ (any original with a nonempty mirror directory,
or, for files, an extension).
-/
theorem descriptor_sidecar_locations (env : Env) (fs : FS) (P Q : String)
    (c : List Nat) (ctx : Option String)
    (hP : P ≠ "") (hnorm : normalizePath P = P)
    (hc : fs.files.lookup P = some c)
    (hne : emergencyMetadataPath env P (env.clock fs.tick) ≠
      getBackupMetadataFilename (emergencyPayloadPath env P (env.clock fs.tick)))
    (hQ : Q ≠ "") (hnormQ : normalizePath Q = Q)
    (hQdir : fs.dirs.contains Q = true)
    (hBPf : pathJoin (getBackupDir env Q)
      (getBackupFolderName Q (env.clock fs.tick)) ≠ "")
    (hBPe : emergencyFolderPayloadPath env Q (env.clock fs.tick) ≠ "")
    (hne2 : emergencyMetadataPath env Q (env.clock fs.tick) ≠
      getBackupMetadataFilename
        (emergencyFolderPayloadPath env Q (env.clock fs.tick))) :
    (∃ m kept,
      (handleBackupCreate env fs P ctx).2 = .ok (m, kept) ∧
      m.original_path = P ∧
      (handleBackupCreate env fs P ctx).1.metas.lookup
        (getBackupMetadataFilename m.backup_path) = some m) ∧
    ((createEmergencyBackup env fs P).1 =
       some (emergencyPayloadPath env P (env.clock fs.tick)) ∧
     ((createEmergencyBackup env fs P).2.metas.lookup
        (emergencyMetadataPath env P (env.clock fs.tick))).isSome = true ∧
     (createEmergencyBackup env fs P).2.metas.lookup
        (getBackupMetadataFilename (emergencyPayloadPath env P (env.clock fs.tick))) =
       fs.metas.lookup
        (getBackupMetadataFilename (emergencyPayloadPath env P (env.clock fs.tick)))) ∧
    (∃ m kept,
      (handleBackupFolderCreate env fs Q ctx).2 = .ok (m, kept) ∧
      m.original_path = Q ∧
      (handleBackupFolderCreate env fs Q ctx).1.metas.lookup
        (getBackupMetadataFilename m.backup_path) = some m) ∧
    ((createEmergencyFolderBackup env fs Q).1 =
       some (emergencyFolderPayloadPath env Q (env.clock fs.tick)) ∧
     ((createEmergencyFolderBackup env fs Q).2.metas.lookup
        (emergencyMetadataPath env Q (env.clock fs.tick))).isSome = true ∧
     (createEmergencyFolderBackup env fs Q).2.metas.lookup
        (getBackupMetadataFilename
          (emergencyFolderPayloadPath env Q (env.clock fs.tick))) =
       fs.metas.lookup
        (getBackupMetadataFilename
          (emergencyFolderPayloadPath env Q (env.clock fs.tick)))) := by
  refine ⟨?_, ?_, ?_, ?_⟩
  · rw [backup_create_run env fs P c ctx hP hnorm hc]
    refine ⟨_, _, rfl, rfl, ?_⟩
    rw [(cleanupOldBackups_frame env _ P).2.1]
    exact lookup_upsert_self _ _ _
  · rw [createEmergencyBackup_run env fs P c hc]
    refine ⟨rfl, ?_, ?_⟩
    · rw [lookup_upsert_self]
      rfl
    · exact lookup_upsert_ne _ _ _ _ (Ne.symm hne)
  · rw [backup_folder_create_run env fs Q ctx hQ hnormQ hQdir hBPf]
    refine ⟨_, _, rfl, rfl, ?_⟩
    rw [(cleanupOldBackups_frame env _ Q).2.1]
    exact lookup_upsert_self _ _ _
  · rw [createEmergencyFolderBackup_run env fs Q hQ hQdir hBPe]
    refine ⟨rfl, ?_, ?_⟩
    · rw [lookup_upsert_self]
      rfl
    · exact lookup_upsert_ne _ _ _ _ (Ne.symm hne2)

/-- Witness for `descriptor_sidecar_locations`, on a store holding the
file `/w/f.txt` and the folder `/w/d`: both regular sidecars are
adjacent, both emergency sidecar locations differ from the adjacent
ones. -/
theorem descriptor_sidecar_locations_witness :
    ("/w/f.txt" ≠ "" ∧ normalizePath "/w/f.txt" = "/w/f.txt" ∧
     fsY.files.lookup "/w/f.txt" = some [1, 2, 3] ∧
     emergencyMetadataPath envX "/w/f.txt" (envX.clock fsY.tick) ≠
       getBackupMetadataFilename
         (emergencyPayloadPath envX "/w/f.txt" (envX.clock fsY.tick)) ∧
     "/w/d" ≠ "" ∧ normalizePath "/w/d" = "/w/d" ∧
     fsY.dirs.contains "/w/d" = true ∧
     pathJoin (getBackupDir envX "/w/d")
       (getBackupFolderName "/w/d" (envX.clock fsY.tick)) ≠ "" ∧
     emergencyFolderPayloadPath envX "/w/d" (envX.clock fsY.tick) ≠ "" ∧
     emergencyMetadataPath envX "/w/d" (envX.clock fsY.tick) ≠
       getBackupMetadataFilename
         (emergencyFolderPayloadPath envX "/w/d" (envX.clock fsY.tick))) ∧
    ((∃ m kept,
      (handleBackupCreate envX fsY "/w/f.txt" none).2 = .ok (m, kept) ∧
      m.original_path = "/w/f.txt" ∧
      (handleBackupCreate envX fsY "/w/f.txt" none).1.metas.lookup
        (getBackupMetadataFilename m.backup_path) = some m) ∧
     ((createEmergencyBackup envX fsY "/w/f.txt").1 =
       some (emergencyPayloadPath envX "/w/f.txt" (envX.clock fsY.tick)) ∧
      ((createEmergencyBackup envX fsY "/w/f.txt").2.metas.lookup
        (emergencyMetadataPath envX "/w/f.txt" (envX.clock fsY.tick))).isSome = true ∧
      (createEmergencyBackup envX fsY "/w/f.txt").2.metas.lookup
        (getBackupMetadataFilename
          (emergencyPayloadPath envX "/w/f.txt" (envX.clock fsY.tick))) =
       fsY.metas.lookup
        (getBackupMetadataFilename
          (emergencyPayloadPath envX "/w/f.txt" (envX.clock fsY.tick)))) ∧
     (∃ m kept,
      (handleBackupFolderCreate envX fsY "/w/d" none).2 = .ok (m, kept) ∧
      m.original_path = "/w/d" ∧
      (handleBackupFolderCreate envX fsY "/w/d" none).1.metas.lookup
        (getBackupMetadataFilename m.backup_path) = some m) ∧
     ((createEmergencyFolderBackup envX fsY "/w/d").1 =
       some (emergencyFolderPayloadPath envX "/w/d" (envX.clock fsY.tick)) ∧
      ((createEmergencyFolderBackup envX fsY "/w/d").2.metas.lookup
        (emergencyMetadataPath envX "/w/d" (envX.clock fsY.tick))).isSome = true ∧
      (createEmergencyFolderBackup envX fsY "/w/d").2.metas.lookup
        (getBackupMetadataFilename
          (emergencyFolderPayloadPath envX "/w/d" (envX.clock fsY.tick))) =
       fsY.metas.lookup
        (getBackupMetadataFilename
          (emergencyFolderPayloadPath envX "/w/d" (envX.clock fsY.tick))))) :=
  ⟨⟨by decide, by decide, by decide, by decide, by decide, by decide,
    by decide, by decide, by decide, by decide⟩,
   descriptor_sidecar_locations envX fsY "/w/f.txt" "/w/d" [1, 2, 3] none
     (by decide) (by decide) (by decide) (by decide) (by decide) (by decide)
     (by decide) (by decide) (by decide) (by decide)⟩

/-- Membership in the version scan: a non-folder descriptor under the
backup root with the right `original_path` appears among the found
versions. -/
theorem mem_findBackupsByFilePath (env : Env) (fs : FS) (P q : String)
    (m : BackupMetadata)
    (hq : (q, m) ∈ fs.metas) (hunder : isUnder env.backupDir q = true)
    (hroot : fs.dirs.contains env.backupDir = true)
    (horig : m.original_path = P)
    (hnf : isFolderMetadata fs m = false) :
    m ∈ findBackupsByFilePath env fs P := by
  obtain ⟨f, d, mm, o, tk, oc⟩ := fs
  simp only at hq hroot hnf ⊢
  simp only [findBackupsByFilePath, findAllBackupMetadataFiles, hroot, if_true]
  rw [jsSort_mem]
  rw [List.mem_filterMap]
  refine ⟨(q, m), List.mem_filter.mpr ⟨hq, hunder⟩, ?_⟩
  rw [if_pos]
  rw [hnf]
  simp [horig]

/-- Every found version has the scanned `original_path` and comes from
a descriptor in the store. -/
theorem of_mem_findBackupsByFilePath (env : Env) (fs : FS) (P : String)
    (b : BackupMetadata) (hb : b ∈ findBackupsByFilePath env fs P) :
    ∃ q, (q, b) ∈ fs.metas ∧ b.original_path = P := by
  obtain ⟨f, d, mm, o, tk, oc⟩ := fs
  simp only [findBackupsByFilePath, findAllBackupMetadataFiles] at hb
  by_cases hroot : List.contains d env.backupDir
  · rw [hroot] at hb
    simp only [if_true] at hb
    rw [jsSort_mem, List.mem_filterMap] at hb
    obtain ⟨pm, hpm, hsome⟩ := hb
    by_cases hcond : (pm.2.original_path == P &&
        !isFolderMetadata ⟨f, d, mm, o, tk, oc⟩ pm.2) = true
    · rw [if_pos hcond] at hsome
      cases hsome
      refine ⟨pm.1, List.mem_of_mem_filter hpm, ?_⟩
      have := (Bool.and_eq_true _ _).mp hcond
      exact beq_iff_eq.mp this.1
    · rw [if_neg hcond] at hsome
      cases hsome
  · rw [Bool.not_eq_true] at hroot
    rw [hroot] at hb
    simp only [Bool.false_eq_true, if_false] at hb
    rw [jsSort_mem] at hb
    exact absurd hb (List.not_mem_nil b)

/-- When every descriptor for `(P, T)` in the store carries the record
`m`, and `m` itself is reachable by the scan, the restore lookup
`find? (timestamp == T)` returns exactly `m`. -/
theorem findBackups_find_timestamp (env : Env) (fs : FS) (P T q : String)
    (m : BackupMetadata)
    (hq : (q, m) ∈ fs.metas) (hunder : isUnder env.backupDir q = true)
    (hroot : fs.dirs.contains env.backupDir = true)
    (horig : m.original_path = P) (hts : m.timestamp = T)
    (hnf : isFolderMetadata fs m = false)
    (hall : ∀ p2 mm, (p2, mm) ∈ fs.metas → mm.original_path = P →
      mm.timestamp = T → mm = m) :
    (findBackupsByFilePath env fs P).find? (fun b => b.timestamp == T) = some m := by
  have hmem := mem_findBackupsByFilePath env fs P q m hq hunder hroot horig hnf
  have hsome : ((findBackupsByFilePath env fs P).find?
      (fun b => b.timestamp == T)).isSome = true :=
    List.find?_isSome.mpr ⟨m, hmem, by simp [hts]⟩
  obtain ⟨b, hb⟩ := Option.isSome_iff_exists.mp hsome
  have hbts : b.timestamp = T := by
    have := List.find?_some hb
    exact beq_iff_eq.mp this
  have hbmem := List.mem_of_find?_eq_some hb
  obtain ⟨q2, hq2, hborig⟩ := of_mem_findBackupsByFilePath env fs P b hbmem
  rw [hb, hall q2 b hq2 hborig hbts]

/-- `contains` is preserved when `mkdir` inserts another directory. -/
theorem contains_insertDir_true (dirs : List String) (d q : String)
    (h : dirs.contains q = true) :
    (if dirs.contains d then dirs else d :: dirs).contains q = true := by
  by_cases hd : dirs.contains d = true
  · rw [if_pos hd]
    exact h
  · rw [if_neg hd]
    simp only [List.contains_cons, h, Bool.or_true]

/-- A path that is no regular file, no directory and no sidecar does
not exist. -/
theorem existsSync_false_of (fs : FS) (p : String)
    (h1 : fs.files.lookup p = none) (h2 : fs.dirs.contains p = false)
    (h3 : fs.metas.lookup p = none) : fs.existsSync p = false := by
  obtain ⟨f, d, mm, o, tk, oc⟩ := fs
  simp only at h1 h2 h3
  simp [FS.existsSync, h1, h3]
  simpa using h2

/-- `createEmergencyBackup` is a silent no-op when the source path does
not exist. -/
theorem createEmergencyBackup_missing (env : Env) (fs : FS) (P : String)
    (h : fs.existsSync P = false) : createEmergencyBackup env fs P = (none, fs) := by
  simp only [createEmergencyBackup, h]
  rfl

/-- `restoreBackup` on an entry whose payload exists while the original
path does not: the emergency snapshot (if requested) silently no-ops on
the missing source, and the restore then fails on the original-file
check, leaving the state unchanged. -/
theorem restoreBackup_original_missing (env : Env) (fs : FS) (P T q : String)
    (m : BackupMetadata) (emerg : Bool)
    (hq : (q, m) ∈ fs.metas) (hunder : isUnder env.backupDir q = true)
    (hroot : fs.dirs.contains env.backupDir = true)
    (horig : m.original_path = P) (hts : m.timestamp = T)
    (hnf : isFolderMetadata fs m = false)
    (hall : ∀ p2 mm, (p2, mm) ∈ fs.metas → mm.original_path = P →
      mm.timestamp = T → mm = m)
    (hbne : m.backup_path ≠ "")
    (hbex : fs.existsSync m.backup_path = true)
    (hPex : fs.existsSync P = false) :
    restoreBackup env fs P T emerg =
      (fs, .error ("Original file not found: " ++ P)) := by
  have hfind := findBackups_find_timestamp env fs P T q m hq hunder hroot horig hts
    hnf hall
  have hemerg : createEmergencyBackup env fs P = (none, fs) := by
    simp only [createEmergencyBackup, hPex]
    rfl
  have hbeq : (m.backup_path == "") = false := by
    simp [beq_eq_false_iff_ne, hbne]
  cases emerg <;>
    simp [restoreBackup, hfind, hemerg, hbeq, hbex, hPex]

/--
C9 (implicit claim).  When a backup entry `(P, T)` exists with its
payload on disk but the original path `P` itself no longer exists,
`backup_restore` fails with `Original file not found` — a deleted
original can never be restored from its backups, even though the
handler creates `P`'s parent directory first, and independently of the
emergency flag (the emergency snapshot silently no-ops on a missing
source).  File contents and sidecars are unchanged; `P` is still
absent.
-/
theorem restore_missing_original_fails (env : Env) (fs : FS) (P T : String)
    (emerg : Bool) (m : BackupMetadata)
    (hP : P ≠ "") (hT : T ≠ "") (hnorm : normalizePath P = P)
    (hm : fs.metas.lookup (getBackupMetadataFilename
      (pathJoin (getBackupDir env P) (getBackupFilename P T))) = some m)
    (hunder : isUnder env.backupDir (getBackupMetadataFilename
      (pathJoin (getBackupDir env P) (getBackupFilename P T))) = true)
    (hroot : fs.dirs.contains env.backupDir = true)
    (horig : m.original_path = P) (hts : m.timestamp = T)
    (hbne : m.backup_path ≠ "")
    (hbfile : (fs.files.lookup m.backup_path).isSome = true)
    (hbdir : fs.dirs.contains m.backup_path = false)
    (hbtD : m.backup_path ≠ pathDirname P)
    (hPfile : fs.files.lookup P = none)
    (hPdir : fs.dirs.contains P = false)
    (hPtD : P ≠ pathDirname P)
    (hPmeta : fs.metas.lookup P = none)
    (hall : ∀ p2 mm, (p2, mm) ∈ fs.metas → mm.original_path = P →
      mm.timestamp = T → mm = m) :
    (handleBackupRestore env fs P T emerg).2 =
      .error ("Original file not found: " ++ P) ∧
    (handleBackupRestore env fs P T emerg).1.files = fs.files ∧
    (handleBackupRestore env fs P T emerg).1.files.lookup P = none ∧
    (handleBackupRestore env fs P T emerg).1.metas = fs.metas := by
  simp only [getBackupMetadataFilename] at hm hunder
  have hnf0 : ∀ fs2 : FS, fs2.dirs.contains m.backup_path = false →
      isFolderMetadata fs2 m = false := fun fs2 h =>
    isFolderMetadata_false_of_not_dir fs2 m h
  have hS1 : ∀ e : Bool,
      restoreBackup env
        ({ files := fs.files
           dirs := if fs.dirs.contains (pathDirname P) = true then fs.dirs
                   else pathDirname P :: fs.dirs
           metas := fs.metas
           ops := upsert fs.ops (env.uuid fs.opCtr)
             (opRunning (env.uuid fs.opCtr) "backup_restore")
           tick := fs.tick
           opCtr := fs.opCtr + 1 } : FS) P T e =
      (({ files := fs.files
          dirs := if fs.dirs.contains (pathDirname P) = true then fs.dirs
                  else pathDirname P :: fs.dirs
          metas := fs.metas
          ops := upsert fs.ops (env.uuid fs.opCtr)
            (opRunning (env.uuid fs.opCtr) "backup_restore")
          tick := fs.tick
          opCtr := fs.opCtr + 1 } : FS),
       .error ("Original file not found: " ++ P)) := by
    intro e
    exact restoreBackup_original_missing env _ P T
      ((pathJoin (getBackupDir env P) (getBackupFilename P T)) ++ ".meta.json") m e
      (mem_of_lookup_some hm) hunder (contains_insertDir_true _ _ _ hroot)
      horig hts (hnf0 _ (contains_insertDir _ _ _ hbdir hbtD))
      (fun p2 mm hmm => hall p2 mm hmm) hbne
      (by
        simp only [FS.existsSync, hbfile, Bool.true_or])
      (by
        simp only [FS.existsSync, hPfile, hPmeta, Option.isSome_none,
          Bool.false_or, Bool.or_false]
        rw [contains_insertDir fs.dirs (pathDirname P) P hPdir hPtD])
  have hce : (createEmergencyBackup env
      ({ files := fs.files
         dirs := if fs.dirs.contains (pathDirname P) = true then fs.dirs
                 else pathDirname P :: fs.dirs
         metas := fs.metas
         ops := upsert fs.ops (env.uuid fs.opCtr)
           (opRunning (env.uuid fs.opCtr) "backup_restore")
         tick := fs.tick
         opCtr := fs.opCtr + 1 } : FS) P).2 =
      ({ files := fs.files
         dirs := if fs.dirs.contains (pathDirname P) = true then fs.dirs
                 else pathDirname P :: fs.dirs
         metas := fs.metas
         ops := upsert fs.ops (env.uuid fs.opCtr)
           (opRunning (env.uuid fs.opCtr) "backup_restore")
         tick := fs.tick
         opCtr := fs.opCtr + 1 } : FS) := by
    simp only [createEmergencyBackup, FS.existsSync, hPfile, hPmeta,
      Option.isSome_none, Bool.false_or, Bool.or_false,
      contains_insertDir fs.dirs (pathDirname P) P hPdir hPtD,
      Bool.not_false, if_true]
  cases emerg
  · simp only [handleBackupRestore, createOperation, if_neg hP, if_neg hT, hnorm,
      findBackupByTimestamp, readBackupMetadata, hm, isCancelled,
      lookup_upsert_self, FS.mkdir, hnf0, hbdir]
    simp only [Bool.false_eq_true, if_false]
    rw [show ∀ i ty : String, ⟨i, ty, 0, false, "running"⟩ = opRunning i ty
        from fun i ty => rfl]
    rw [hS1 false]
    exact ⟨rfl, rfl, hPfile, rfl⟩
  · simp only [handleBackupRestore, createOperation, if_neg hP, if_neg hT, hnorm,
      findBackupByTimestamp, readBackupMetadata, hm, isCancelled,
      lookup_upsert_self, FS.mkdir, hnf0, hbdir]
    simp only [Bool.false_eq_true, if_false, eq_self_iff_true, if_true]
    rw [show ∀ i ty : String, ⟨i, ty, 0, false, "running"⟩ = opRunning i ty
        from fun i ty => rfl]
    rw [hce, hS1 true]
    exact ⟨rfl, rfl, hPfile, rfl⟩

/-- Fixture for the `C9` witness: the backup pair of `/w/f.txt` at
`20250101-000000-000` exists with its payload, but the original file
itself has been deleted. -/
def fsGone : FS :=
  { files := [("/bk/w/f.txt.20250101-000000-000", [1, 2, 3])]
    dirs := ["/bk", "/bk/w"]
    metas := [("/bk/w/f.txt.20250101-000000-000.meta.json",
      mkMeta "/w/f.txt" "f.txt" "20250101-000000-000" "2025-01-01T00:00:00.000Z"
        "/bk/w/f.txt.20250101-000000-000" "x" none)]
    ops := []
    tick := 0
    opCtr := 0 }

/-- Witness for `restore_missing_original_fails`: with the entry and its
payload in place and `/w/f.txt` deleted, the restore (with the default
emergency flag) reports `Original file not found` and changes no file. -/
theorem restore_missing_original_fails_witness :
    (fsGone.metas.lookup (getBackupMetadataFilename
      (pathJoin (getBackupDir envX "/w/f.txt")
        (getBackupFilename "/w/f.txt" "20250101-000000-000"))) =
      some (mkMeta "/w/f.txt" "f.txt" "20250101-000000-000"
        "2025-01-01T00:00:00.000Z" "/bk/w/f.txt.20250101-000000-000" "x" none) ∧
     fsGone.files.lookup "/w/f.txt" = none) ∧
    ((handleBackupRestore envX fsGone "/w/f.txt" "20250101-000000-000" true).2 =
      .error ("Original file not found: " ++ "/w/f.txt") ∧
     (handleBackupRestore envX fsGone "/w/f.txt" "20250101-000000-000" true).1.files =
       fsGone.files ∧
     (handleBackupRestore envX fsGone "/w/f.txt" "20250101-000000-000"
       true).1.files.lookup "/w/f.txt" = none ∧
     (handleBackupRestore envX fsGone "/w/f.txt" "20250101-000000-000" true).1.metas =
       fsGone.metas) :=
  ⟨⟨by decide, by decide⟩,
   restore_missing_original_fails envX fsGone "/w/f.txt" "20250101-000000-000" true
     (mkMeta "/w/f.txt" "f.txt" "20250101-000000-000" "2025-01-01T00:00:00.000Z"
       "/bk/w/f.txt.20250101-000000-000" "x" none)
     (by decide) (by decide) (by decide) (by decide) (by decide) (by decide)
     (by decide) (by decide) (by decide) (by decide) (by decide) (by decide)
     (by decide) (by decide) (by decide) (by decide)
     (by
       intro p2 mm hmm _ _
       rcases List.mem_singleton.mp hmm with h
       cases h
       rfl)⟩

/-- An existing binding under another key survives an `upsert`. -/
theorem mem_upsert_of_mem {α : Type} (l : List (String × α)) (k k2 : String)
    (v : α) (v2 : α) (h : (k2, v2) ∈ l) (hne : k2 ≠ k) :
    (k2, v2) ∈ upsert l k v :=
  List.mem_cons_of_mem _ (List.mem_filter.mpr ⟨h, by simp [hne]⟩)

/-- Full evaluation of a successful `restoreBackup` with the emergency
flag set: the (second) emergency snapshot of the current content is
taken, then the backup payload is copied over the original. -/
theorem restoreBackup_success (env : Env) (fs : FS) (P T q : String)
    (m : BackupMetadata) (cb cpre : List Nat)
    (hq : (q, m) ∈ fs.metas) (hunder : isUnder env.backupDir q = true)
    (hroot : fs.dirs.contains env.backupDir = true)
    (horig : m.original_path = P) (hts : m.timestamp = T)
    (hnf : isFolderMetadata fs m = false)
    (hall : ∀ p2 mm, (p2, mm) ∈ fs.metas → mm.original_path = P →
      mm.timestamp = T → mm = m)
    (hbne : m.backup_path ≠ "")
    (hbc : fs.files.lookup m.backup_path = some cb)
    (hc : fs.files.lookup P = some cpre)
    (hEP : emergencyPayloadPath env P (env.clock fs.tick) ≠ P)
    (hEB : emergencyPayloadPath env P (env.clock fs.tick) ≠ m.backup_path) :
    restoreBackup env fs P T true =
      (⟨upsert (upsert fs.files (emergencyPayloadPath env P (env.clock fs.tick)) cpre)
          P cb,
        (if (if fs.dirs.contains env.emergencyDir then fs.dirs
             else env.emergencyDir :: fs.dirs).contains (emergencyDirOf env P)
         then (if fs.dirs.contains env.emergencyDir then fs.dirs
               else env.emergencyDir :: fs.dirs)
         else emergencyDirOf env P ::
           (if fs.dirs.contains env.emergencyDir then fs.dirs
            else env.emergencyDir :: fs.dirs)),
        upsert fs.metas (emergencyMetadataPath env P (env.clock fs.tick))
          ⟨P, pathBasename P, env.clock fs.tick, env.isoClock (fs.tick + 1),
           emergencyPayloadPath env P (env.clock fs.tick),
           pathRelative env.cwd (emergencyPayloadPath env P (env.clock fs.tick)),
           some "Emergency backup created before restoration"⟩,
        fs.ops, fs.tick + 2, fs.opCtr⟩,
       .ok ()) := by
  have hfind := findBackups_find_timestamp env fs P T q m hq hunder hroot horig hts
    hnf hall
  have hrun := createEmergencyBackup_run env fs P cpre hc
  have hbeq : (m.backup_path == "") = false := by
    simp [beq_eq_false_iff_ne, hbne]
  have hlb : (upsert fs.files (emergencyPayloadPath env P (env.clock fs.tick))
      cpre).lookup m.backup_path = some cb := by
    rw [lookup_upsert_ne _ _ _ _ (Ne.symm hEB)]
    exact hbc
  have hlp : (upsert fs.files (emergencyPayloadPath env P (env.clock fs.tick))
      cpre).lookup P = some cpre := by
    rw [lookup_upsert_ne _ _ _ _ (Ne.symm hEP)]
    exact hc
  simp only [restoreBackup, hfind, if_true, hrun, FS.existsSync, copyFile,
    FS.writeFile, hbeq, hlb, hlp, Option.isSome_some, Bool.true_or,
    Bool.not_true, Bool.or_false, Bool.false_eq_true, if_false]

/-! ## C2 — emergency snapshots on restore -/

/-- The full trace of a successful `backup_restore` with the emergency
flag: `P` receives the backup payload `cb`, and the pre-restore content
`cpre` is snapshotted into the emergency store twice (at the wall-clock
readings of ticks `tick` and `tick + 2`); nothing else changes. -/
theorem handleRestore_emergency_trace (env : Env) (fs : FS) (P T : String)
    (m : BackupMetadata) (cb cpre : List Nat)
    (hP : P ≠ "") (hT : T ≠ "") (hnorm : normalizePath P = P)
    (hm : fs.metas.lookup (getBackupMetadataFilename
      (pathJoin (getBackupDir env P) (getBackupFilename P T))) = some m)
    (hunder : isUnder env.backupDir (getBackupMetadataFilename
      (pathJoin (getBackupDir env P) (getBackupFilename P T))) = true)
    (hroot : fs.dirs.contains env.backupDir = true)
    (horig : m.original_path = P) (hts : m.timestamp = T)
    (hbne : m.backup_path ≠ "")
    (hbc : fs.files.lookup m.backup_path = some cb)
    (hc : fs.files.lookup P = some cpre)
    (hbdir : fs.dirs.contains m.backup_path = false)
    (hbtD : m.backup_path ≠ pathDirname P)
    (hbe1 : m.backup_path ≠ env.emergencyDir)
    (hbe2 : m.backup_path ≠ emergencyDirOf env P)
    (hT1T : env.clock fs.tick ≠ T)
    (hMPE : getBackupMetadataFilename (pathJoin (getBackupDir env P)
      (getBackupFilename P T)) ≠ emergencyMetadataPath env P (env.clock fs.tick))
    (hE1P : emergencyPayloadPath env P (env.clock fs.tick) ≠ P)
    (hE1B : emergencyPayloadPath env P (env.clock fs.tick) ≠ m.backup_path)
    (hE2P : emergencyPayloadPath env P (env.clock (fs.tick + 2)) ≠ P)
    (hE2B : emergencyPayloadPath env P (env.clock (fs.tick + 2)) ≠ m.backup_path)
    (hE12 : emergencyPayloadPath env P (env.clock fs.tick) ≠
      emergencyPayloadPath env P (env.clock (fs.tick + 2)))
    (hall : ∀ p2 mm, (p2, mm) ∈ fs.metas → mm.original_path = P →
      mm.timestamp = T → mm = m) :
    (handleBackupRestore env fs P T true).2 = .ok ⟨P, T⟩ ∧
    (handleBackupRestore env fs P T true).1.files.lookup P = some cb ∧
    (handleBackupRestore env fs P T true).1.files.lookup
      (emergencyPayloadPath env P (env.clock fs.tick)) = some cpre ∧
    (handleBackupRestore env fs P T true).1.files.lookup
      (emergencyPayloadPath env P (env.clock (fs.tick + 2))) = some cpre ∧
    (∀ x, x ≠ P → x ≠ emergencyPayloadPath env P (env.clock fs.tick) →
      x ≠ emergencyPayloadPath env P (env.clock (fs.tick + 2)) →
      (handleBackupRestore env fs P T true).1.files.lookup x =
        fs.files.lookup x) := by
  simp only [getBackupMetadataFilename] at hm hunder hMPE
  have hnf0 : ∀ fs2 : FS, fs2.dirs.contains m.backup_path = false →
      isFolderMetadata fs2 m = false := fun fs2 h =>
    isFolderMetadata_false_of_not_dir fs2 m h
  simp only [handleBackupRestore, createOperation, if_neg hP, if_neg hT, hnorm,
    findBackupByTimestamp, readBackupMetadata, hm, isCancelled,
    lookup_upsert_self, FS.mkdir, hnf0, hbdir]
  simp only [Bool.false_eq_true, if_false, eq_self_iff_true, if_true]
  rw [show ∀ i ty : String, (⟨i, ty, 0, false, "running"⟩ : Operation) =
      opRunning i ty from fun i ty => rfl]
  set S1 : FS :=
    { files := fs.files
      dirs := if fs.dirs.contains (pathDirname P) = true then fs.dirs
              else pathDirname P :: fs.dirs
      metas := fs.metas
      ops := upsert fs.ops (env.uuid fs.opCtr)
        (opRunning (env.uuid fs.opCtr) "backup_restore")
      tick := fs.tick
      opCtr := fs.opCtr + 1 } with hS1
  have hcS1 : S1.files.lookup P = some cpre := hc
  have hrun1 := createEmergencyBackup_run env S1 P cpre hcS1
  have hSE1 : (createEmergencyBackup env S1 P).2 =
      (⟨upsert S1.files (emergencyPayloadPath env P (env.clock S1.tick)) cpre,
        (if (if S1.dirs.contains env.emergencyDir then S1.dirs
             else env.emergencyDir :: S1.dirs).contains (emergencyDirOf env P)
         then (if S1.dirs.contains env.emergencyDir then S1.dirs
               else env.emergencyDir :: S1.dirs)
         else emergencyDirOf env P ::
           (if S1.dirs.contains env.emergencyDir then S1.dirs
            else env.emergencyDir :: S1.dirs)),
        upsert S1.metas (emergencyMetadataPath env P (env.clock S1.tick))
          ⟨P, pathBasename P, env.clock S1.tick, env.isoClock (S1.tick + 1),
           emergencyPayloadPath env P (env.clock S1.tick),
           pathRelative env.cwd (emergencyPayloadPath env P (env.clock S1.tick)),
           some "Emergency backup created before restoration"⟩,
        S1.ops, S1.tick + 2, S1.opCtr⟩ : FS) := by
    rw [hrun1]
  rw [hSE1]
  set S2 : FS :=
    (⟨upsert S1.files (emergencyPayloadPath env P (env.clock S1.tick)) cpre,
      (if (if S1.dirs.contains env.emergencyDir then S1.dirs
           else env.emergencyDir :: S1.dirs).contains (emergencyDirOf env P)
       then (if S1.dirs.contains env.emergencyDir then S1.dirs
             else env.emergencyDir :: S1.dirs)
       else emergencyDirOf env P ::
         (if S1.dirs.contains env.emergencyDir then S1.dirs
          else env.emergencyDir :: S1.dirs)),
      upsert S1.metas (emergencyMetadataPath env P (env.clock S1.tick))
        ⟨P, pathBasename P, env.clock S1.tick, env.isoClock (S1.tick + 1),
         emergencyPayloadPath env P (env.clock S1.tick),
         pathRelative env.cwd (emergencyPayloadPath env P (env.clock S1.tick)),
         some "Emergency backup created before restoration"⟩,
      S1.ops, S1.tick + 2, S1.opCtr⟩ : FS) with hS2
  have hrb := restoreBackup_success env S2 P T
    ((pathJoin (getBackupDir env P) (getBackupFilename P T)) ++ ".meta.json") m
    cb cpre
    (mem_upsert_of_mem _ _ _ _ _ (mem_of_lookup_some hm) hMPE)
    hunder
    (contains_insertDir_true _ _ _ (contains_insertDir_true _ _ _
      (contains_insertDir_true _ _ _ hroot)))
    horig hts
    (isFolderMetadata_false_of_not_dir _ _ (contains_insertDir _ _ _
      (contains_insertDir _ _ _ (contains_insertDir _ _ _ hbdir hbtD) hbe1) hbe2))
    (by
      intro p2 mm hmm ho ht2
      rcases List.mem_cons.mp hmm with h | h
      · cases h
        exact absurd ht2 hT1T
      · exact hall p2 mm (List.mem_of_mem_filter h) ho ht2)
    hbne
    ((lookup_upsert_ne _ _ _ _ (Ne.symm hE1B)).trans hbc)
    ((lookup_upsert_ne _ _ _ _ (Ne.symm hE1P)).trans hc)
    hE2P hE2B
  rw [hrb]
  refine ⟨rfl, ?_, ?_, ?_, ?_⟩
  · exact lookup_upsert_self _ _ _
  · rw [lookup_upsert_ne _ _ _ _ hE1P, lookup_upsert_ne _ _ _ _ hE12]
    exact lookup_upsert_self _ _ _
  · rw [lookup_upsert_ne _ _ _ _ hE2P]
    exact lookup_upsert_self _ _ _
  · intro x hx1 hx2 hx3
    rw [lookup_upsert_ne _ _ _ _ hx1, lookup_upsert_ne _ _ _ _ hx3,
      lookup_upsert_ne _ _ _ _ hx2]

/-- Fixture for C2: the original `/w/f.txt` currently holds `[9]`, its
backup at timestamp `20250101-000000-000` holds `[1, 2, 3]`; the store
clock is at tick 1, so the two emergency snapshots of the restore get
timestamps `…-001` and `…-003`. -/
def fsLive : FS :=
  { files := [("/w/f.txt", [9]), ("/bk/w/f.txt.20250101-000000-000", [1, 2, 3])]
    dirs := ["/bk", "/bk/w", "/w"]
    metas := [("/bk/w/f.txt.20250101-000000-000.meta.json",
      mkMeta "/w/f.txt" "f.txt" "20250101-000000-000" "2025-01-01T00:00:00.000Z"
        "/bk/w/f.txt.20250101-000000-000" "x" none)]
    ops := []
    tick := 1
    opCtr := 0 }

/--
C2 counterexample.  Claim C2 states that restoring with
`make-emergency=true` produces *exactly one* new entry in the emergency
store.  On the code the restore succeeds and writes the pre-restore
content to the emergency store **twice** (once in the handler, once
inside `restoreBackup`): starting from a store with no emergency
entries, two files exist under the emergency root afterwards, so the
count is 2, not 1.
-/
theorem restore_emergency_double_snapshot_cex :
    (handleBackupRestore envX fsLive "/w/f.txt" "20250101-000000-000" true).2 =
      .ok ⟨"/w/f.txt", "20250101-000000-000"⟩ ∧
    (handleBackupRestore envX fsLive "/w/f.txt"
      "20250101-000000-000" true).1.files.lookup "/w/f.txt" = some [1, 2, 3] ∧
    ((handleBackupRestore envX fsLive "/w/f.txt"
      "20250101-000000-000" true).1.files.filter
        (fun kv => isUnder "/em" kv.1)).length = 2 ∧
    ¬ (((handleBackupRestore envX fsLive "/w/f.txt"
      "20250101-000000-000" true).1.files.filter
        (fun kv => isUnder "/em" kv.1)).length = 1) ∧
    (handleBackupRestore envX fsLive "/w/f.txt"
      "20250101-000000-000" true).1.files.lookup
        "/em/w/f.txt.emergency.20250101-000000-001" = some [9] ∧
    (handleBackupRestore envX fsLive "/w/f.txt"
      "20250101-000000-000" true).1.files.lookup
        "/em/w/f.txt.emergency.20250101-000000-003" = some [9] := by
  decide

/--
C2, amended.  Restoring file `P` from `(P, T)` with the emergency flag
set, when `P` currently holds `cpre` and the backup payload holds `cb`
(with `cpre` arbitrary, in particular different from `cb`), succeeds
and leaves `P` with the backup's content — but it produces *two* new
entries in the emergency store, not one: the handler snapshots `P`
before calling `restoreBackup`, and `restoreBackup` snapshots it again
(they collapse into one entry only if both wall-clock reads render the
same timestamp).  Both snapshots hold `P`'s pre-restore content, and no
other file binding changes.
-/
theorem restore_with_emergency_two_snapshots (env : Env) (fs : FS) (P T : String)
    (m : BackupMetadata) (cb cpre : List Nat)
    (hP : P ≠ "") (hT : T ≠ "") (hnorm : normalizePath P = P)
    (hm : fs.metas.lookup (getBackupMetadataFilename
      (pathJoin (getBackupDir env P) (getBackupFilename P T))) = some m)
    (hunder : isUnder env.backupDir (getBackupMetadataFilename
      (pathJoin (getBackupDir env P) (getBackupFilename P T))) = true)
    (hroot : fs.dirs.contains env.backupDir = true)
    (horig : m.original_path = P) (hts : m.timestamp = T)
    (hbne : m.backup_path ≠ "")
    (hbc : fs.files.lookup m.backup_path = some cb)
    (hc : fs.files.lookup P = some cpre)
    (hbdir : fs.dirs.contains m.backup_path = false)
    (hbtD : m.backup_path ≠ pathDirname P)
    (hbe1 : m.backup_path ≠ env.emergencyDir)
    (hbe2 : m.backup_path ≠ emergencyDirOf env P)
    (hT1T : env.clock fs.tick ≠ T)
    (hMPE : getBackupMetadataFilename (pathJoin (getBackupDir env P)
      (getBackupFilename P T)) ≠ emergencyMetadataPath env P (env.clock fs.tick))
    (hE1P : emergencyPayloadPath env P (env.clock fs.tick) ≠ P)
    (hE1B : emergencyPayloadPath env P (env.clock fs.tick) ≠ m.backup_path)
    (hE2P : emergencyPayloadPath env P (env.clock (fs.tick + 2)) ≠ P)
    (hE2B : emergencyPayloadPath env P (env.clock (fs.tick + 2)) ≠ m.backup_path)
    (hE12 : emergencyPayloadPath env P (env.clock fs.tick) ≠
      emergencyPayloadPath env P (env.clock (fs.tick + 2)))
    (hall : ∀ p2 mm, (p2, mm) ∈ fs.metas → mm.original_path = P →
      mm.timestamp = T → mm = m) :
    (handleBackupRestore env fs P T true).2 = .ok ⟨P, T⟩ ∧
    (handleBackupRestore env fs P T true).1.files.lookup P = some cb ∧
    (handleBackupRestore env fs P T true).1.files.lookup
      (emergencyPayloadPath env P (env.clock fs.tick)) = some cpre ∧
    (handleBackupRestore env fs P T true).1.files.lookup
      (emergencyPayloadPath env P (env.clock (fs.tick + 2))) = some cpre ∧
    (∀ x, x ≠ P → x ≠ emergencyPayloadPath env P (env.clock fs.tick) →
      x ≠ emergencyPayloadPath env P (env.clock (fs.tick + 2)) →
      (handleBackupRestore env fs P T true).1.files.lookup x =
        fs.files.lookup x) :=
  handleRestore_emergency_trace env fs P T m cb cpre hP hT hnorm hm hunder hroot
    horig hts hbne hbc hc hbdir hbtD hbe1 hbe2 hT1T hMPE hE1P hE1B hE2P hE2B
    hE12 hall

/-- Witness for `restore_with_emergency_two_snapshots`, at the
counterexample's input. -/
theorem restore_with_emergency_two_snapshots_witness :
    (fsLive.metas.lookup (getBackupMetadataFilename
      (pathJoin (getBackupDir envX "/w/f.txt")
        (getBackupFilename "/w/f.txt" "20250101-000000-000"))) =
      some (mkMeta "/w/f.txt" "f.txt" "20250101-000000-000"
        "2025-01-01T00:00:00.000Z" "/bk/w/f.txt.20250101-000000-000" "x" none) ∧
     fsLive.files.lookup "/w/f.txt" = some [9] ∧
     envX.clock fsLive.tick ≠ "20250101-000000-000") ∧
    ((handleBackupRestore envX fsLive "/w/f.txt" "20250101-000000-000" true).2 =
      .ok ⟨"/w/f.txt", "20250101-000000-000"⟩ ∧
     (handleBackupRestore envX fsLive "/w/f.txt"
       "20250101-000000-000" true).1.files.lookup "/w/f.txt" = some [1, 2, 3] ∧
     (handleBackupRestore envX fsLive "/w/f.txt"
       "20250101-000000-000" true).1.files.lookup
         (emergencyPayloadPath envX "/w/f.txt" (envX.clock fsLive.tick)) =
       some [9] ∧
     (handleBackupRestore envX fsLive "/w/f.txt"
       "20250101-000000-000" true).1.files.lookup
         (emergencyPayloadPath envX "/w/f.txt" (envX.clock (fsLive.tick + 2))) =
       some [9] ∧
     (∀ x, x ≠ "/w/f.txt" →
       x ≠ emergencyPayloadPath envX "/w/f.txt" (envX.clock fsLive.tick) →
       x ≠ emergencyPayloadPath envX "/w/f.txt" (envX.clock (fsLive.tick + 2)) →
       (handleBackupRestore envX fsLive "/w/f.txt"
         "20250101-000000-000" true).1.files.lookup x =
         fsLive.files.lookup x)) :=
  ⟨⟨by decide, by decide, by decide⟩,
   restore_with_emergency_two_snapshots envX fsLive "/w/f.txt"
     "20250101-000000-000"
     (mkMeta "/w/f.txt" "f.txt" "20250101-000000-000" "2025-01-01T00:00:00.000Z"
       "/bk/w/f.txt.20250101-000000-000" "x" none) [1, 2, 3] [9]
     (by decide) (by decide) (by decide) (by decide) (by decide) (by decide)
     (by decide) (by decide) (by decide) (by decide) (by decide) (by decide)
     (by decide) (by decide) (by decide) (by decide) (by decide) (by decide)
     (by decide) (by decide) (by decide) (by decide)
     (by
       intro p2 mm hmm _ _
       rcases List.mem_singleton.mp hmm with h
       cases h
       rfl)⟩


/-! ## C1 — create/restore round trip -/

/--
C1.  Round trip: create a backup of file `P` (current content `c`,
arbitrary bytes including `[]`), then — after `P` has been overwritten
with arbitrary other content `c2` — restore `P` at exactly the
timestamp the create returned (with the default emergency flag).  The
create succeeds keeping one version, the restore succeeds, and `P` is
byte-identical to `c`, its content at creation time.  The hypotheses
pin the well-formed situation: `P` is a clean absolute path outside the
two store roots, the backup root directory exists, the store holds no
descriptor for `P` yet, the retention cap is at least one, and the
wall-clock readings involved render fresh distinct names.
-/
theorem backup_restore_roundtrip (env : Env) (fs : FS) (P : String)
    (c c2 : List Nat) (ctx : Option String)
    (hP : P ≠ "") (hT : env.clock fs.tick ≠ "") (hnorm : normalizePath P = P)
    (hc : fs.files.lookup P = some c)
    (hroot : fs.dirs.contains env.backupDir = true)
    (hM : 1 ≤ env.maxVersions)
    (hclean : ∀ q mm, (q, mm) ∈ fs.metas → mm.original_path ≠ P)
    (hunder : isUnder env.backupDir (getBackupMetadataFilename
      (pathJoin (getBackupDir env P)
        (getBackupFilename P (env.clock fs.tick)))) = true)
    (hBPP : pathJoin (getBackupDir env P)
      (getBackupFilename P (env.clock fs.tick)) ≠ P)
    (hBPne : pathJoin (getBackupDir env P)
      (getBackupFilename P (env.clock fs.tick)) ≠ "")
    (hBPdirs : fs.dirs.contains (pathJoin (getBackupDir env P)
      (getBackupFilename P (env.clock fs.tick))) = false)
    (hBPBD : pathJoin (getBackupDir env P)
      (getBackupFilename P (env.clock fs.tick)) ≠ getBackupDir env P)
    (hBPtD : pathJoin (getBackupDir env P)
      (getBackupFilename P (env.clock fs.tick)) ≠ pathDirname P)
    (hBPe1 : pathJoin (getBackupDir env P)
      (getBackupFilename P (env.clock fs.tick)) ≠ env.emergencyDir)
    (hBPe2 : pathJoin (getBackupDir env P)
      (getBackupFilename P (env.clock fs.tick)) ≠ emergencyDirOf env P)
    (hT1T : env.clock (fs.tick + 2) ≠ env.clock fs.tick)
    (hMPE : getBackupMetadataFilename (pathJoin (getBackupDir env P)
      (getBackupFilename P (env.clock fs.tick))) ≠
      emergencyMetadataPath env P (env.clock (fs.tick + 2)))
    (hE1P : emergencyPayloadPath env P (env.clock (fs.tick + 2)) ≠ P)
    (hE1B : emergencyPayloadPath env P (env.clock (fs.tick + 2)) ≠
      pathJoin (getBackupDir env P) (getBackupFilename P (env.clock fs.tick)))
    (hE2P : emergencyPayloadPath env P (env.clock (fs.tick + 4)) ≠ P)
    (hE2B : emergencyPayloadPath env P (env.clock (fs.tick + 4)) ≠
      pathJoin (getBackupDir env P) (getBackupFilename P (env.clock fs.tick)))
    (hE12 : emergencyPayloadPath env P (env.clock (fs.tick + 2)) ≠
      emergencyPayloadPath env P (env.clock (fs.tick + 4))) :
    (handleBackupCreate env fs P ctx).2 =
      .ok (⟨P, pathBasename P, env.clock fs.tick, env.isoClock (fs.tick + 1),
            pathJoin (getBackupDir env P) (getBackupFilename P (env.clock fs.tick)),
            pathRelative env.cwd (pathJoin (getBackupDir env P)
              (getBackupFilename P (env.clock fs.tick))), ctx⟩, 1) ∧
    (handleBackupRestore env
      ((handleBackupCreate env fs P ctx).1.writeFile P c2)
      P (env.clock fs.tick) true).2 = .ok ⟨P, env.clock fs.tick⟩ ∧
    (handleBackupRestore env
      ((handleBackupCreate env fs P ctx).1.writeFile P c2)
      P (env.clock fs.tick) true).1.files.lookup P = some c := by
  rw [backup_create_run env fs P c ctx hP hnorm hc]
  simp only []
  set F1m : BackupMetadata :=
    ⟨P, pathBasename P, env.clock fs.tick, env.isoClock (fs.tick + 1),
     pathJoin (getBackupDir env P) (getBackupFilename P (env.clock fs.tick)),
     pathRelative env.cwd (pathJoin (getBackupDir env P)
       (getBackupFilename P (env.clock fs.tick))), ctx⟩ with hF1m
  set F1 : FS :=
    ⟨upsert fs.files (pathJoin (getBackupDir env P)
       (getBackupFilename P (env.clock fs.tick))) c,
     if fs.dirs.contains (getBackupDir env P) then fs.dirs
     else getBackupDir env P :: fs.dirs,
     upsert fs.metas (getBackupMetadataFilename (pathJoin (getBackupDir env P)
       (getBackupFilename P (env.clock fs.tick)))) F1m,
     upsert fs.ops (env.uuid fs.opCtr) (opRunning (env.uuid fs.opCtr)
       "backup_create"),
     fs.tick + 2, fs.opCtr + 1⟩ with hF1
  have hone : findBackupsByFilePath env F1 P = [F1m] :=
    findBackupsByFilePath_single env F1 P
      (getBackupMetadataFilename (pathJoin (getBackupDir env P)
        (getBackupFilename P (env.clock fs.tick)))) F1m
      (fs.metas.filter (fun kv => kv.1 != getBackupMetadataFilename
        (pathJoin (getBackupDir env P)
          (getBackupFilename P (env.clock fs.tick)))))
      (contains_insertDir_true _ _ _ hroot) rfl hunder rfl
      (isFolderMetadata_false_of_not_dir _ _
        (contains_insertDir _ _ _ hBPdirs hBPBD))
      (fun pm hpm => hclean pm.1 pm.2 (List.mem_of_mem_filter hpm))
  have hle : (findBackupsByFilePath env F1 P).length ≤ env.maxVersions := by
    rw [hone]
    exact hM
  have hcln : cleanupOldBackups env F1 P = (1, F1) := by
    rw [cleanupOldBackups_eq_of_le env F1 P hle, hone]
    rfl
  rw [hcln]
  have htrace := handleRestore_emergency_trace env (F1.writeFile P c2) P
    (env.clock fs.tick) F1m c c2 hP hT hnorm
    (lookup_upsert_self _ _ _)
    hunder
    (contains_insertDir_true _ _ _ hroot)
    rfl rfl hBPne
    ((lookup_upsert_ne _ _ _ _ hBPP).trans (lookup_upsert_self _ _ _))
    (lookup_upsert_self _ _ _)
    (contains_insertDir _ _ _ hBPdirs hBPBD)
    hBPtD hBPe1 hBPe2 hT1T hMPE hE1P hE1B hE2P hE2B hE12
    (by
      intro p2 mm hmm ho ht
      rcases List.mem_cons.mp hmm with h | h
      · cases h
        rfl
      · exact absurd ho (hclean p2 mm (List.mem_of_mem_filter h)))
  exact ⟨rfl, htrace.1, htrace.2.1⟩

/-- Witness for `backup_restore_roundtrip` on the concrete fixture:
back up `/w/f.txt` (content `[1, 2, 3]`), overwrite it with `[7]`,
restore at the returned timestamp, and read back `[1, 2, 3]`. -/
theorem backup_restore_roundtrip_witness :
    (handleBackupCreate envX fsX "/w/f.txt" (some "agent")).2 =
      .ok (⟨"/w/f.txt", pathBasename "/w/f.txt", envX.clock fsX.tick,
            envX.isoClock (fsX.tick + 1),
            pathJoin (getBackupDir envX "/w/f.txt")
              (getBackupFilename "/w/f.txt" (envX.clock fsX.tick)),
            pathRelative envX.cwd (pathJoin (getBackupDir envX "/w/f.txt")
              (getBackupFilename "/w/f.txt" (envX.clock fsX.tick))),
            some "agent"⟩, 1) ∧
    (handleBackupRestore envX
      ((handleBackupCreate envX fsX "/w/f.txt" (some "agent")).1.writeFile
        "/w/f.txt" [7])
      "/w/f.txt" (envX.clock fsX.tick) true).2 =
      .ok ⟨"/w/f.txt", envX.clock fsX.tick⟩ ∧
    (handleBackupRestore envX
      ((handleBackupCreate envX fsX "/w/f.txt" (some "agent")).1.writeFile
        "/w/f.txt" [7])
      "/w/f.txt" (envX.clock fsX.tick) true).1.files.lookup "/w/f.txt" =
      some [1, 2, 3] :=
  backup_restore_roundtrip envX fsX "/w/f.txt" [1, 2, 3] [7] (some "agent")
    (by decide) (by decide) (by decide) (by decide) (by decide) (by decide)
    (by
      intro q mm hmm
      cases hmm)
    (by decide) (by decide) (by decide) (by decide) (by decide) (by decide)
    (by decide) (by decide) (by decide) (by decide) (by decide) (by decide)
    (by decide) (by decide) (by decide)

/-! ## C4 — folder-copy filter scoping (`copyFolderRecursive`)

The folder tree walked by `copyFolderRecursive` is modelled as a rose
tree: an entry is a file with byte content or a directory with a named
entry list.  `minimatch` is again an oracle `mm : String → String →
Bool` applied as `mm name pattern`; the optional include / exclude
patterns are `Option String` (absent = the falsy `undefined` branch of
the `&&` guards).  Copying into a fresh (initially absent) target is
the tree transformation below, read directly off the loop body: per
entry, the exclude guard is checked first, then the include guard, and
only a surviving directory entry is recursed into. -/

mutual

inductive FsEntry where
  | file (content : List Nat) : FsEntry
  | dir (entries : FsEntries) : FsEntry

inductive FsEntries where
  | nil : FsEntries
  | cons (name : String) (e : FsEntry) (rest : FsEntries) : FsEntries

end

mutual

/-- Dispatch on one surviving entry: files are copied byte-for-byte,
directories are copied recursively with the same patterns. -/
def copyFolderEntry (mm : String → String → Bool) (inc exc : Option String) :
    FsEntry → FsEntry
  | .file c => .file c
  | .dir es => .dir (copyFolderRecursive mm inc exc es)
termination_by structural e => e

/-- The entry loop of `copyFolderRecursive` (lines 992–1024): each
entry — directory or not — is dropped when its *name* matches the
exclude pattern, or when an include pattern is given and its name does
not match it. -/
def copyFolderRecursive (mm : String → String → Bool)
    (inc exc : Option String) : FsEntries → FsEntries
  | .nil => .nil
  | .cons n e tl =>
    if (match exc with | some pat => mm n pat | none => false) then
      copyFolderRecursive mm inc exc tl
    else if (match inc with | some pat => !(mm n pat) | none => false) then
      copyFolderRecursive mm inc exc tl
    else
      .cons n (copyFolderEntry mm inc exc e) (copyFolderRecursive mm inc exc tl)
termination_by structural es => es

end

/-- Name lookup in a directory's entry list (`readdirSync` order). -/
def entriesLookup (s : String) : FsEntries → Option FsEntry
  | .nil => none
  | .cons n e tl => if s = n then some e else entriesLookup s tl

/-- Follow a path, one component per directory level, through a tree. -/
def treeFind : List String → FsEntry → Option FsEntry
  | [], e => some e
  | s :: rest, .dir es =>
    (match entriesLookup s es with
     | some e1 => treeFind rest e1
     | none => none)
  | _ :: _, .file _ => none

/-- Induction over an entry list that leaves the entries opaque. -/
def FsEntries.induct (motive : FsEntries → Prop) (hnil : motive FsEntries.nil)
    (hcons : ∀ n e tl, motive tl → motive (FsEntries.cons n e tl)) :
    ∀ es, motive es
  | .nil => hnil
  | .cons n e tl => hcons n e tl (FsEntries.induct motive hnil hcons tl)
termination_by structural es => es

/-- An entry whose name matches the exclude pattern is skipped whole,
directory or not. -/
theorem copyFolder_cons_excl (mm : String → String → Bool)
    (inc : Option String) (pat n : String) (e : FsEntry) (tl : FsEntries)
    (hm : mm n pat = true) :
    copyFolderRecursive mm inc (some pat) (.cons n e tl) =
      copyFolderRecursive mm inc (some pat) tl := by
  simp only [copyFolderRecursive, hm, if_true]

/-- An entry whose name avoids the exclude pattern is kept (no include
pattern given). -/
theorem copyFolder_cons_keep (mm : String → String → Bool)
    (pat n : String) (e : FsEntry) (tl : FsEntries)
    (hm : mm n pat = false) :
    copyFolderRecursive mm none (some pat) (.cons n e tl) =
      .cons n (copyFolderEntry mm none (some pat) e)
        (copyFolderRecursive mm none (some pat) tl) := by
  simp only [copyFolderRecursive, hm, Bool.false_eq_true, if_false]

/-- Looking up a non-excluded name in a copied directory finds exactly
the copy of what the source directory holds under that name. -/
theorem entriesLookup_copyFolder (mm : String → String → Bool)
    (pat s : String) (hs : mm s pat = false) :
    ∀ es, entriesLookup s (copyFolderRecursive mm none (some pat) es) =
      (entriesLookup s es).map (copyFolderEntry mm none (some pat)) := by
  intro es
  induction es using FsEntries.induct with
  | hnil => rfl
  | hcons n e tl ih =>
    by_cases hm : mm n pat = true
    · rw [copyFolder_cons_excl mm none pat n e tl hm, ih]
      have hsn : s ≠ n := by
        intro h
        rw [h] at hs
        rw [hs] at hm
        cases hm
      simp only [entriesLookup, if_neg hsn]
    · have hm' : mm n pat = false := by
        cases h : mm n pat
        · rfl
        · exact absurd h hm
      rw [copyFolder_cons_keep mm pat n e tl hm']
      by_cases hsn : s = n
      · subst hsn
        simp [entriesLookup]
      · simp only [entriesLookup, if_neg hsn, ih]

/-- Any name that survives the copy of a directory avoids the exclude
pattern. -/
theorem entriesLookup_copyFolder_some (mm : String → String → Bool)
    (pat s : String) :
    ∀ es e0, entriesLookup s (copyFolderRecursive mm none (some pat) es) =
      some e0 → mm s pat = false := by
  intro es
  induction es using FsEntries.induct with
  | hnil =>
    intro e0 h
    cases h
  | hcons n e tl ih =>
    intro e0 h
    by_cases hm : mm n pat = true
    · rw [copyFolder_cons_excl mm none pat n e tl hm] at h
      exact ih e0 h
    · have hm' : mm n pat = false := by
        cases h2 : mm n pat
        · rfl
        · exact absurd h2 hm
      rw [copyFolder_cons_keep mm pat n e tl hm'] at h
      by_cases hsn : s = n
      · subst hsn
        exact hm'
      · rw [show entriesLookup s (FsEntries.cons n
          (copyFolderEntry mm none (some pat) e)
          (copyFolderRecursive mm none (some pat) tl)) =
          entriesLookup s (copyFolderRecursive mm none (some pat) tl) from by
            simp only [entriesLookup, if_neg hsn]] at h
        exact ih e0 h

/-- Every component name along a path that survives the copy avoids
the exclude pattern — in particular a directory whose own name matches
it is pruned with its whole subtree. -/
theorem treeFind_copy_some_avoid (mm : String → String → Bool) (pat : String) :
    ∀ (ps : List String) (e e' : FsEntry),
      treeFind ps (copyFolderEntry mm none (some pat) e) = some e' →
      ∀ s ∈ ps, mm s pat = false := by
  intro ps
  induction ps with
  | nil =>
    intro e e' h s hs
    cases hs
  | cons t rest ih =>
    intro e e' h s hs
    cases e with
    | file c => cases h
    | dir es =>
      simp only [copyFolderEntry, treeFind] at h
      cases hlk : entriesLookup t (copyFolderRecursive mm none (some pat) es) with
      | none =>
        rw [hlk] at h
        cases h
      | some e0 =>
        rw [hlk] at h
        have ht : mm t pat = false :=
          entriesLookup_copyFolder_some mm pat t es e0 hlk
        rcases List.mem_cons.mp hs with rfl | hs2
        · exact ht
        · have hmap := entriesLookup_copyFolder mm pat t ht es
          rw [hlk] at hmap
          cases hle : entriesLookup t es with
          | none =>
            rw [hle] at hmap
            cases hmap
          | some e1 =>
            rw [hle] at hmap
            have he0 : e0 = copyFolderEntry mm none (some pat) e1 :=
              Option.some.inj hmap
            exact ih e1 e' (he0 ▸ h) s hs2

/-- Along a path all of whose component names avoid the exclude
pattern, the copied tree holds exactly the copy of what the source
holds: files keep their bytes, directories stay directories. -/
theorem treeFind_copy_map (mm : String → String → Bool) (pat : String) :
    ∀ (ps : List String) (e : FsEntry), (∀ s ∈ ps, mm s pat = false) →
      treeFind ps (copyFolderEntry mm none (some pat) e) =
        (treeFind ps e).map (copyFolderEntry mm none (some pat)) := by
  intro ps
  induction ps with
  | nil =>
    intro e h
    rfl
  | cons t rest ih =>
    intro e h
    have ht : mm t pat = false := h t (List.mem_cons_self t rest)
    have hrest : ∀ s ∈ rest, mm s pat = false :=
      fun s hs => h s (List.mem_cons_of_mem t hs)
    cases e with
    | file c => rfl
    | dir es =>
      simp only [copyFolderEntry, treeFind]
      rw [entriesLookup_copyFolder mm pat t ht es]
      cases hle : entriesLookup t es with
      | none => rfl
      | some e1 => exact ih e1 hrest

/-- A concrete matcher: the glob `*.tmp` matches exactly the names
ending in `.tmp` (minimatch's behaviour on that pattern); every other
pattern matches nothing. -/
def mmTmp : String → String → Bool := fun name pat =>
  if pat = "*.tmp" then strEnds ".tmp" name else false

/-- A concrete source tree: a directory named `x.tmp` holding
`keep.txt`, next to a plain file `a.txt`. -/
def srcT : FsEntries :=
  .cons "x.tmp" (.dir (.cons "keep.txt" (.file [1]) .nil))
    (.cons "a.txt" (.file [2]) .nil)

/-- Counterexample to C4 as stated: copying `srcT` with
`exclude = "*.tmp"` prunes the *directory* `x.tmp` — it is not
recursed into, and its non-matching child `keep.txt` is lost — even
though the claim says all directories are preserved and only
`*.tmp` files at any depth are omitted. -/
theorem folder_copy_prunes_matching_dir_cex :
    treeFind ["x.tmp", "keep.txt"] (.dir srcT) = some (.file [1]) ∧
    mmTmp "keep.txt" "*.tmp" = false ∧
    (treeFind ["x.tmp"]
      (.dir (copyFolderRecursive mmTmp none (some "*.tmp") srcT))).isSome
      = false ∧
    (treeFind ["x.tmp", "keep.txt"]
      (.dir (copyFolderRecursive mmTmp none (some "*.tmp") srcT))).isSome
      = false ∧
    treeFind ["a.txt"]
      (.dir (copyFolderRecursive mmTmp none (some "*.tmp") srcT)) =
      some (.file [2]) :=
  ⟨rfl, by decide, rfl, rfl, rfl⟩

/--
C4.  Corrected filter scoping of `copyFolderRecursive` (exclude
pattern, no include): the exclude guard applies to every entry,
directories included, so (i) every component name along any path that
survives the copy avoids the exclude pattern — a directory whose own
name matches is pruned with its entire subtree, not recursed into —
and (ii) every path all of whose component names avoid the pattern is
preserved exactly: files keep their bytes and directories remain
directories.  The original claim, that directories are recursed into
regardless of their own name and only files are filtered, is false
(see `folder_copy_prunes_matching_dir_cex`).
-/
theorem folder_copy_filters_directories (mm : String → String → Bool)
    (pat : String) (src : FsEntries) (ps qs : List String) (e' : FsEntry)
    (hsurv : treeFind qs
      (.dir (copyFolderRecursive mm none (some pat) src)) = some e')
    (havoid : ∀ s ∈ ps, mm s pat = false) :
    (∀ s ∈ qs, mm s pat = false) ∧
    treeFind ps (.dir (copyFolderRecursive mm none (some pat) src)) =
      (treeFind ps (.dir src)).map (copyFolderEntry mm none (some pat)) :=
  ⟨fun s hs =>
    treeFind_copy_some_avoid mm pat qs (.dir src) e' hsurv s hs,
   treeFind_copy_map mm pat ps (.dir src) havoid⟩

/-- Witness for `folder_copy_filters_directories` on the concrete
tree: the surviving path `a.txt` avoids `*.tmp`, and along the
avoiding path `a.txt` the copy preserves the file exactly. -/
theorem folder_copy_filters_directories_witness :
    (∀ s ∈ ["a.txt"], mmTmp s "*.tmp" = false) ∧
    treeFind ["a.txt"]
      (.dir (copyFolderRecursive mmTmp none (some "*.tmp") srcT)) =
      (treeFind ["a.txt"] (.dir srcT)).map
        (copyFolderEntry mmTmp none (some "*.tmp")) :=
  folder_copy_filters_directories mmTmp "*.tmp" srcT ["a.txt"] ["a.txt"]
    (.file [2]) rfl (by decide)

/-! ## C5 — timestamp format and ordering (`generateTimestamp`)

`generateTimestamp` (lines 755–766) reads the local clock through the
`Date` getters and renders
`${year}${month}${day}-${hours}${minutes}${seconds}-${milliseconds}`
with `String(·).padStart(2 | 3, "0")` on every field except the year.
An instant is modelled by the tuple of getter values (`getFullYear`,
0-based `getMonth`, `getDate`, `getHours`, `getMinutes`, `getSeconds`,
`getMilliseconds`); chronological order of instants is the
lexicographic order of these tuples, linearised below as a mixed-radix
key.  `String(n)` followed by zero-padding to a fixed width `w` is,
for `n < 10^w`, exactly the `w`-digit big-endian decimal rendering
`digitsBE w n`; the unpadded year prints as 4 digits on the modelled
range 1000–9999. -/

/-- The clock readings `generateTimestamp` interpolates. -/
structure JsDate where
  fullYear : Nat
  month : Nat
  date : Nat
  hours : Nat
  minutes : Nat
  seconds : Nat
  milliseconds : Nat
deriving Repr, DecidableEq

/-- Field ranges the `Date` getters deliver (years restricted to four
decimal digits, which covers every representable modern date). -/
def JsDate.valid (d : JsDate) : Prop :=
  1000 ≤ d.fullYear ∧ d.fullYear ≤ 9999 ∧ d.month ≤ 11 ∧
  1 ≤ d.date ∧ d.date ≤ 31 ∧ d.hours ≤ 23 ∧ d.minutes ≤ 59 ∧
  d.seconds ≤ 59 ∧ d.milliseconds ≤ 999

instance (d : JsDate) : Decidable d.valid := by
  unfold JsDate.valid
  infer_instance

/-- Mixed-radix linearisation of the getter tuple: strictly monotone
in the lexicographic field order, hence in chronological order. -/
def JsDate.key (d : JsDate) : Nat :=
  d.fullYear * 33177600000 + d.month * 2764800000 + d.date * 86400000 +
    d.hours * 3600000 + d.minutes * 60000 + d.seconds * 1000 +
    d.milliseconds

/-- Big-endian `w`-digit decimal rendering of `n % 10^w` — the result
of `String(n).padStart(w, "0")` whenever `n < 10^w`. -/
def digitsBE : Nat → Nat → List Char
  | 0, _ => []
  | w + 1, n => Nat.digitChar (n / 10 ^ w % 10) :: digitsBE w n

/-- The string `generateTimestamp` returns when the clock reads `d`. -/
def generateTimestampOf (d : JsDate) : String :=
  String.mk (digitsBE 4 d.fullYear) ++ String.mk (digitsBE 2 (d.month + 1)) ++
    String.mk (digitsBE 2 d.date) ++ "-" ++ String.mk (digitsBE 2 d.hours) ++
    String.mk (digitsBE 2 d.minutes) ++ String.mk (digitsBE 2 d.seconds) ++
    "-" ++ String.mk (digitsBE 3 d.milliseconds)

theorem digitsBE_length (w n : Nat) : (digitsBE w n).length = w := by
  induction w generalizing n with
  | zero => rfl
  | succ w ih => simp [digitsBE, ih]

/-- Splitting off the low block of a mixed-radix comparison. -/
theorem blocks_lt_iff (B q1 r1 q2 r2 : Nat) (hr1 : r1 < B) (hr2 : r2 < B) :
    r1 + B * q1 < r2 + B * q2 ↔ (q1 < q2 ∨ (q1 = q2 ∧ r1 < r2)) := by
  constructor
  · intro h
    rcases Nat.lt_trichotomy q1 q2 with h1 | h1 | h1
    · exact Or.inl h1
    · subst h1
      exact Or.inr ⟨rfl, Nat.lt_of_add_lt_add_right h⟩
    · exfalso
      have hup : r2 + B * q2 < B * (q2 + 1) := by
        calc r2 + B * q2 < B + B * q2 := Nat.add_lt_add_right hr2 _
        _ = B * (q2 + 1) := by ring
      have hdn : B * (q2 + 1) ≤ r1 + B * q1 :=
        le_trans (Nat.mul_le_mul_left B h1) (Nat.le_add_left _ _)
      exact absurd h (Nat.lt_asymm (lt_of_lt_of_le hup hdn))
  · intro h
    rcases h with h1 | ⟨rfl, h2⟩
    · calc r1 + B * q1 < B + B * q1 := Nat.add_lt_add_right hr1 _
      _ = B * (q1 + 1) := by ring
      _ ≤ B * q2 := Nat.mul_le_mul_left B h1
      _ ≤ r2 + B * q2 := Nat.le_add_left _ _
    · exact Nat.add_lt_add_right h2 _

/-- Splitting off the low block of a mixed-radix equality. -/
theorem blocks_eq_iff (B q1 r1 q2 r2 : Nat) (hr1 : r1 < B) (hr2 : r2 < B) :
    r1 + B * q1 = r2 + B * q2 ↔ (q1 = q2 ∧ r1 = r2) := by
  constructor
  · intro h
    have hq : q1 = q2 := by
      rcases Nat.lt_trichotomy q1 q2 with h1 | h1 | h1
      · exact absurd h (Nat.ne_of_lt
          ((blocks_lt_iff B q1 r1 q2 r2 hr1 hr2).mpr (Or.inl h1)))
      · exact h1
      · exact absurd h.symm (Nat.ne_of_lt
          ((blocks_lt_iff B q2 r2 q1 r1 hr2 hr1).mpr (Or.inl h1)))
    subst hq
    exact ⟨rfl, Nat.add_right_cancel h⟩
  · intro h
    rw [h.1, h.2]

/-- Lexicographic comparison of nonempty character lists, head first. -/
theorem lex_cons_iff_char (c1 c2 : Char) (t1 t2 : List Char) :
    List.Lex (fun a b => a < b) (c1 :: t1) (c2 :: t2) ↔
      (c1 < c2 ∨ (c1 = c2 ∧ List.Lex (fun a b => a < b) t1 t2)) := by
  constructor
  · intro h
    cases h with
    | cons h => exact Or.inr ⟨rfl, h⟩
    | rel h => exact Or.inl h
  · intro h
    rcases h with h | ⟨rfl, h⟩
    · exact List.Lex.rel h
    · exact List.Lex.cons h

/-- Decimal digit characters compare like the digits they render. -/
theorem digitChar_lt_iff (x y : Nat) (hx : x < 10) (hy : y < 10) :
    (Nat.digitChar x < Nat.digitChar y ↔ x < y) :=
  (by decide :
    ∀ x2 < 10, ∀ y2 < 10, (Nat.digitChar x2 < Nat.digitChar y2 ↔ x2 < y2))
    x hx y hy

/-- Decimal digit characters are distinct for distinct digits. -/
theorem digitChar_eq_iff (x y : Nat) (hx : x < 10) (hy : y < 10) :
    (Nat.digitChar x = Nat.digitChar y ↔ x = y) :=
  (by decide :
    ∀ x2 < 10, ∀ y2 < 10, (Nat.digitChar x2 = Nat.digitChar y2 ↔ x2 = y2))
    x hx y hy

/-- Fixed-width decimal blocks compare exactly like the rendered
values (modulo the block size). -/
theorem digitsBE_lt_iff (w : Nat) :
    ∀ a b : Nat, (List.Lex (fun x y => x < y) (digitsBE w a) (digitsBE w b) ↔
      a % 10 ^ w < b % 10 ^ w) := by
  induction w with
  | zero =>
    intro a b
    simp only [digitsBE, pow_zero, Nat.mod_one]
    constructor
    · intro h
      cases h
    · intro h
      exact absurd h (Nat.lt_irrefl 0)
  | succ w ih =>
    intro a b
    have h10 : 0 < (10 : Nat) ^ w := Nat.pos_pow_of_pos w (by norm_num)
    rw [show digitsBE (w + 1) a =
          Nat.digitChar (a / 10 ^ w % 10) :: digitsBE w a from rfl,
        show digitsBE (w + 1) b =
          Nat.digitChar (b / 10 ^ w % 10) :: digitsBE w b from rfl,
        lex_cons_iff_char,
        digitChar_lt_iff _ _ (Nat.mod_lt _ (by norm_num))
          (Nat.mod_lt _ (by norm_num)),
        digitChar_eq_iff _ _ (Nat.mod_lt _ (by norm_num))
          (Nat.mod_lt _ (by norm_num)),
        ih a b, pow_succ, Nat.mod_mul, Nat.mod_mul]
    exact (blocks_lt_iff (10 ^ w) _ _ _ _ (Nat.mod_lt _ h10)
      (Nat.mod_lt _ h10)).symm

/-- Fixed-width decimal blocks are equal exactly when the rendered
values agree (modulo the block size). -/
theorem digitsBE_eq_iff (w : Nat) :
    ∀ a b : Nat, (digitsBE w a = digitsBE w b ↔ a % 10 ^ w = b % 10 ^ w) := by
  induction w with
  | zero =>
    intro a b
    simp [digitsBE, Nat.mod_one]
  | succ w ih =>
    intro a b
    have h10 : 0 < (10 : Nat) ^ w := Nat.pos_pow_of_pos w (by norm_num)
    rw [show digitsBE (w + 1) a =
          Nat.digitChar (a / 10 ^ w % 10) :: digitsBE w a from rfl,
        show digitsBE (w + 1) b =
          Nat.digitChar (b / 10 ^ w % 10) :: digitsBE w b from rfl,
        List.cons_eq_cons,
        digitChar_eq_iff _ _ (Nat.mod_lt _ (by norm_num))
          (Nat.mod_lt _ (by norm_num)),
        ih a b, pow_succ, Nat.mod_mul, Nat.mod_mul]
    exact (blocks_eq_iff (10 ^ w) _ _ _ _ (Nat.mod_lt _ h10)
      (Nat.mod_lt _ h10)).symm

/-- Lexicographic comparison peels equal-length leading blocks. -/
theorem lex_append_iff (l1 : List Char) :
    ∀ (l2 r1 r2 : List Char), l1.length = l2.length →
      (List.Lex (fun a b => a < b) (l1 ++ r1) (l2 ++ r2) ↔
        (List.Lex (fun a b => a < b) l1 l2 ∨
          (l1 = l2 ∧ List.Lex (fun a b => a < b) r1 r2))) := by
  induction l1 with
  | nil =>
    intro l2 r1 r2 hlen
    cases l2 with
    | nil =>
      constructor
      · intro h
        exact Or.inr ⟨rfl, h⟩
      · intro h
        rcases h with h | ⟨-, h⟩
        · cases h
        · exact h
    | cons b bs => simp at hlen
  | cons a as ih =>
    intro l2 r1 r2 hlen
    cases l2 with
    | nil => simp at hlen
    | cons b bs =>
      simp only [List.length_cons, Nat.add_right_cancel_iff] at hlen
      simp only [List.cons_append, lex_cons_iff_char, List.cons_eq_cons,
        ih bs r1 r2 hlen]
      tauto

/-- Equality of appends peels equal-length leading blocks. -/
theorem append_eq_iff (l1 l2 r1 r2 : List Char) (h : l1.length = l2.length) :
    l1 ++ r1 = l2 ++ r2 ↔ (l1 = l2 ∧ r1 = r2) := by
  constructor
  · intro he
    exact List.append_inj he h
  · intro he
    rw [he.1, he.2]

/-- The rendered timestamp, as a character list in right-nested form. -/
theorem generateTimestampOf_data (d : JsDate) :
    (generateTimestampOf d).data =
      digitsBE 4 d.fullYear ++ (digitsBE 2 (d.month + 1) ++
        (digitsBE 2 d.date ++ ('-' :: (digitsBE 2 d.hours ++
          (digitsBE 2 d.minutes ++ (digitsBE 2 d.seconds ++
            ('-' :: digitsBE 3 d.milliseconds))))))) := by
  simp [generateTimestampOf, String.data_append, List.append_assoc]

/--
C5.  Timestamp ordering: for clock readings `d1`, `d2` in the ranges
the `Date` getters deliver, lexicographic string comparison of the
generated `YYYYMMDD-HHMMSS-mmm` strings coincides with chronological
order of the instants (the mixed-radix key of the getter tuple), and
the strings are equal exactly when every field agrees — including
zero-padded boundary values of every field.
-/
theorem timestamp_lex_iff_chronological (d1 d2 : JsDate)
    (h1 : d1.valid) (h2 : d2.valid) :
    (generateTimestampOf d1 < generateTimestampOf d2 ↔ d1.key < d2.key) ∧
    (generateTimestampOf d1 = generateTimestampOf d2 ↔ d1.key = d2.key) := by
  obtain ⟨hy1a, hy1b, hmo1, hdt1a, hdt1b, hh1, hmi1, hs1, hms1⟩ := h1
  obtain ⟨hy2a, hy2b, hmo2, hdt2a, hdt2b, hh2, hmi2, hs2, hms2⟩ := h2
  have hc1 : ('-' < '-') = False := eq_false (by decide)
  have hc2 : ('-' = '-') = True := eq_true rfl
  have hp4 : ((10 : Nat) ^ 4) = 10000 := by norm_num
  have hp3 : ((10 : Nat) ^ 3) = 1000 := by norm_num
  have hp2 : ((10 : Nat) ^ 2) = 100 := by norm_num
  constructor
  · have step1 : (generateTimestampOf d1 < generateTimestampOf d2) ↔
        List.Lex (fun a b => a < b) (generateTimestampOf d1).data
          (generateTimestampOf d2).data := by
      rw [String.lt_iff_toList_lt]
      exact Iff.rfl
    simp only [generateTimestampOf_data] at step1
    simp only [lex_append_iff, digitsBE_length, lex_cons_iff_char,
      digitsBE_lt_iff, digitsBE_eq_iff, hc1, hc2, false_or, true_and,
      hp4, hp3, hp2] at step1
    refine step1.trans ?_
    unfold JsDate.key
    omega
  · have step2 : (generateTimestampOf d1 = generateTimestampOf d2) ↔
        (generateTimestampOf d1).data = (generateTimestampOf d2).data :=
      ⟨fun h => by rw [h], fun h => String.ext h⟩
    simp only [generateTimestampOf_data] at step2
    simp only [append_eq_iff, digitsBE_length, List.cons_eq_cons,
      digitsBE_eq_iff, hc2, true_and, hp4, hp3, hp2] at step2
    refine step2.trans ?_
    unfold JsDate.key
    omega

/-- Witness for `timestamp_lex_iff_chronological` at a zero-padded
boundary: the last millisecond of 2025 against the first of 2026. -/
theorem timestamp_lex_iff_chronological_witness :
    ((generateTimestampOf ⟨2025, 11, 31, 23, 59, 59, 999⟩ <
        generateTimestampOf ⟨2026, 0, 1, 0, 0, 0, 0⟩) ↔
      (JsDate.key ⟨2025, 11, 31, 23, 59, 59, 999⟩ <
        JsDate.key ⟨2026, 0, 1, 0, 0, 0, 0⟩)) ∧
    ((generateTimestampOf ⟨2025, 11, 31, 23, 59, 59, 999⟩ =
        generateTimestampOf ⟨2026, 0, 1, 0, 0, 0, 0⟩) ↔
      (JsDate.key ⟨2025, 11, 31, 23, 59, 59, 999⟩ =
        JsDate.key ⟨2026, 0, 1, 0, 0, 0, 0⟩)) :=
  timestamp_lex_iff_chronological ⟨2025, 11, 31, 23, 59, 59, 999⟩
    ⟨2026, 0, 1, 0, 0, 0, 0⟩ (by decide) (by decide)
